import Mathlib

/- Verification of the youtube-transcriber heuristic core (URL identifier
   extraction, timestamp parsing/formatting, paragraph reflow, chapter
   inference, and the web transcript endpoint) against its specification.
   Python strings are modelled as List Char (ASCII semantics for the case,
   whitespace and digit predicates), Python ints as Int, fallible
   operations as Option/Except. -/

namespace YTV

/-- ASCII decimal digit, the regex class d restricted to ASCII. -/
def isDigitC (c : Char) : Bool := '0' ≤ c && c ≤ '9'

/-- Whitespace as Python str.strip, str.split and the regex class treat it
    (ASCII subset: space, tab, newline, carriage return, form feed, vertical tab). -/
def isSpaceC (c : Char) : Bool :=
  c = ' ' || c = '\t' || c = '\n' || c = '\x0d' || c = '\x0c' || c = '\x0b'

/-- Lowercase an ASCII letter, for case-insensitive matching. -/
def lowc (c : Char) : Char :=
  if 'A' ≤ c && c ≤ 'Z' then Char.ofNat (c.toNat + 32) else c

/-- Python str.strip with no arguments: drop leading and trailing whitespace. -/
def pyStrip (l : List Char) : List Char :=
  ((l.dropWhile isSpaceC).reverse.dropWhile isSpaceC).reverse

/-- Python str.split(sep) for a one-character separator: keeps empty pieces,
    no run merging. -/
def splitOnC (sep : Char) : List Char → List (List Char)
  | [] => [[]]
  | c :: cs =>
    match splitOnC sep cs with
    | t :: ts => if c = sep then [] :: t :: ts else (c :: t) :: ts
    | [] => [[]]

/-- Decimal digits of a natural number, most significant first; the fuel
    argument only forces structural termination and is always sufficient
    at the wrapper below. -/
def natDigitsAux : Nat → Nat → List Char
  | 0, _ => []
  | fuel + 1, n =>
    if n < 10 then [Char.ofNat (48 + n)]
    else natDigitsAux fuel (n / 10) ++ [Char.ofNat (48 + n % 10)]

/-- Decimal rendering of a natural number. -/
def natDigits (n : Nat) : List Char := natDigitsAux (n + 1) n

/-- Decimal rendering of a Python int (sign plus digits). -/
def intRepr (x : Int) : List Char :=
  if x < 0 then '-' :: natDigits x.natAbs else natDigits x.toNat

/-- Numeric value of a list of decimal digit characters. -/
def digitsVal (l : List Char) : Nat :=
  l.foldl (fun a c => a * 10 + (c.toNat - 48)) 0

/-- Python int(string): optional surrounding whitespace, optional sign, then
    decimal digits; anything else raises ValueError, modelled as none.
    (Underscore digit separators and non-ASCII digits are outside the
    modelled input space.) -/
def pyInt (l : List Char) : Option Int :=
  match pyStrip l with
  | [] => none
  | c :: r =>
    if c = '+' then
      if !r.isEmpty && r.all isDigitC then some (digitsVal r) else none
    else if c = '-' then
      if !r.isEmpty && r.all isDigitC then some (-(digitsVal r : Int)) else none
    else if (c :: r).all isDigitC then some (digitsVal (c :: r)) else none

/-- ChapterService parse timestamp: split on colon; two parts are MM:SS,
    three parts are HH:MM:SS; any other arity, or a component rejected by
    int(), yields none (the ValueError is caught). -/
def _parse_timestamp (l : List Char) : Option Int :=
  match splitOnC ':' l with
  | [m, s] =>
    match pyInt m, pyInt s with
    | some mv, some sv => some (mv * 60 + sv)
    | _, _ => none
  | [h, m, s] =>
    match pyInt h, pyInt m, pyInt s with
    | some hv, some mv, some sv => some (hv * 3600 + mv * 60 + sv)
    | _, _, _ => none
  | _ => none

/-- Python format spec 02d: zero-pad the decimal rendering to width two. -/
def pad2 (x : Int) : List Char :=
  let s := intRepr x
  if s.length < 2 then '0' :: s else s

/-- ChapterService format timestamp: MM:SS below one hour, else HH:MM:SS,
    fields zero-padded to two digits (Python floor division and modulus). -/
def _format_timestamp (seconds : Int) : List Char :=
  let hours := seconds / 3600
  let minutes := (seconds % 3600) / 60
  let secs := seconds % 60
  if hours > 0 then pad2 hours ++ (':' :: (pad2 minutes ++ (':' :: pad2 secs)))
  else pad2 minutes ++ (':' :: pad2 secs)

/-- The ChapterData pydantic model: title, start/end in seconds, display timestamp. -/
structure ChapterData where
  title : List Char
  start_time : Int
  end_time : Option Int
  timestamp : List Char
deriving Repr, DecidableEq

/-- A chapter record as found in the provider metadata dictionary: each of the
    three keys may be absent. -/
structure MetaRec where
  title : Option (List Char)
  start_time : Option Int
  end_time : Option Int
deriving Repr, DecidableEq

/-- Python truthiness of the end_time entry: present and nonzero. -/
def endTruthy (r : MetaRec) : Bool :=
  match r.end_time with
  | some e => e ≠ 0
  | none => false

/-- The default title f-string: Chapter N. -/
def chapterName (n : Nat) : List Char := ("Chapter ").toList ++ natDigits n

/-- One ChapterData built from a metadata record at enumerate index i:
    start defaults to 0, a falsy end_time becomes null, an absent title
    becomes Chapter (i+1). -/
def mkChapter (r : MetaRec) (i : Nat) : ChapterData :=
  let start := r.start_time.getD 0
  let endT := match r.end_time with
    | some e => if e = 0 then none else some e
    | none => none
  ⟨r.title.getD (chapterName (i + 1)), start, endT, _format_timestamp start⟩

/-- end_time of the last chapter accumulated so far is null (the
    chapters[-1].end_time is None test; False on an empty list, which the
    i > 0 guard rules out in the source). -/
def lastEndNone (acc : List ChapterData) : Bool :=
  match acc.getLast? with
  | some c => c.end_time.isNone
  | none => false

/-- Assign end_time of the last accumulated chapter (chapters[-1].end_time = v). -/
def setLastEnd : List ChapterData → Int → List ChapterData
  | [], _ => []
  | [c], v => [{ c with end_time := some v }]
  | c :: c2 :: cs, v => c :: setLastEnd (c2 :: cs) v

/-- The enumerate loop of _extract_chapters_from_metadata: before appending
    record i, backfill the previous chapter's null end_time with record i's
    start time. -/
def metaLoop : Nat → List MetaRec → List ChapterData → List ChapterData
  | _, [], acc => acc
  | i, r :: rs, acc =>
    let start := r.start_time.getD 0
    let acc := if i > 0 && lastEndNone acc then setLastEnd acc start else acc
    metaLoop (i + 1) rs (acc ++ [mkChapter r i])

/-- ChapterService metadata strategy, applied to the chapters list found in
    the provider info dictionary. -/
def _extract_chapters_from_metadata (recs : List MetaRec) : List ChapterData :=
  metaLoop 0 recs []

/-- Successor-style reformulation of the metadata loop, used to reason about
    it: carry the chapter built from the previous record and resolve its
    null end from the next record's start. -/
def metaChain (c : ChapterData) : Nat → List MetaRec → List ChapterData
  | _, [] => [c]
  | i, r :: rs =>
    let start := r.start_time.getD 0
    let c := if c.end_time = none then { c with end_time := some start } else c
    c :: metaChain (mkChapter r i) (i + 1) rs

/-- Titles the metadata strategy assigns, starting to count at i (absent
    titles default to Chapter i). -/
def titlesFrom (i : Nat) : List MetaRec → List (List Char)
  | [] => []
  | r :: rs => r.title.getD (chapterName i) :: titlesFrom (i + 1) rs

/-- One caption fragment as format_transcript receives it: an object carrying
    a text attribute or a dict with a text key, a dict without a text key
    (treated as empty text), or any other object, read through str(). -/
inductive Segment where
  | text (t : List Char)
  | noText
  | other (s : List Char)
deriving Repr, DecidableEq

/-- The text format_transcript reads off one segment. -/
def textOf : Segment → List Char
  | .text t => t
  | .noText => []
  | .other s => s

/-- Python replace of newline by space, applied to each character. -/
def replaceNl (l : List Char) : List Char :=
  l.map (fun c => if c = '\n' then ' ' else c)

/-- Remainder of the list after the first closing bracket, if any. -/
def splitAtClose : List Char → Option (List Char)
  | [] => none
  | c :: cs => if c = ']' then some cs else splitAtClose cs

/-- Removal of lazily bracketed runs, the re.sub of a bracket, a shortest
    run, and a closing bracket with the empty string; an unclosed opening
    bracket stays. Fuel only forces termination and is sufficient at the
    wrapper. -/
def removeBracketsAux : Nat → List Char → List Char
  | 0, l => l
  | _ + 1, [] => []
  | fuel + 1, c :: rest =>
    if c = '[' then
      match splitAtClose rest with
      | some after => removeBracketsAux fuel after
      | none => c :: removeBracketsAux fuel rest
    else c :: removeBracketsAux fuel rest

/-- Strip bracket-annotation tokens from a fragment text. -/
def removeBrackets (l : List Char) : List Char := removeBracketsAux (l.length + 1) l

/-- Collapse every maximal run of characters satisfying p into one space
    (the re.sub of a character-class run with a single space). -/
def collapseAux (p : Char → Bool) : Bool → List Char → List Char
  | _, [] => []
  | inRun, c :: cs =>
    if p c then
      if inRun then collapseAux p true cs else ' ' :: collapseAux p true cs
    else c :: collapseAux p false cs

/-- Collapse runs of p-characters to single spaces. -/
def collapseRuns (p : Char → Bool) (l : List Char) : List Char := collapseAux p false l

/-- Python str.split() with no separator: maximal nonempty runs of
    non-whitespace characters (cur holds the current word reversed). -/
def pyWordsAux : List Char → List Char → List (List Char)
  | cur, [] => if cur.isEmpty then [] else [cur.reverse]
  | cur, c :: cs =>
    if isSpaceC c then
      if cur.isEmpty then pyWordsAux [] cs else cur.reverse :: pyWordsAux [] cs
    else pyWordsAux (c :: cur) cs

/-- Words of a text, Python str.split() with no arguments. -/
def pyWords (l : List Char) : List (List Char) := pyWordsAux [] l

/-- Head of the reversed current segment is sentence punctuation (the
    lookbehind of the sentence-splitting regex). -/
def punctHead : List Char → Bool
  | p :: _ => p = '.' || p = '!' || p = '?'
  | [] => false

/-- The re.split on whitespace runs preceded by sentence punctuation. cur is
    the current piece reversed; the flag records whether the scan stands
    inside the separator whitespace run just matched. -/
def splitSentAux : Bool → List Char → List Char → List (List Char)
  | _, cur, [] => [cur.reverse]
  | true, cur, c :: cs =>
    if isSpaceC c then splitSentAux true cur cs
    else splitSentAux false [c] cs
  | false, cur, c :: cs =>
    if isSpaceC c && punctHead cur then cur.reverse :: splitSentAux true [] cs
    else splitSentAux false (c :: cur) cs

/-- Sentence splitting at punctuation boundaries. -/
def splitSentences (l : List Char) : List (List Char) := splitSentAux false [] l

/-- Python str.isupper() of the first character of the next word, ASCII model
    (false when no next word exists; split() never yields an empty word). -/
def nextUpper : List (List Char) → Bool
  | (c :: _) :: _ => 'A' ≤ c && c ≤ 'Z'
  | _ => false

/-- The degenerate-sentence word loop of format_transcript: accumulate words;
    from 15 words on, close when the next word starts uppercase, and at 20
    words unconditionally; leftover words form a final sentence. -/
def segGo : List (List Char) → List (List Char) → List (List Char)
  | [], cur => if cur.isEmpty then [] else [List.intercalate [' '] cur]
  | w :: rest, cur =>
    let cur := cur ++ [w]
    if cur.length ≥ 15 then
      if nextUpper rest then List.intercalate [' '] cur :: segGo rest []
      else if cur.length ≥ 20 then List.intercalate [' '] cur :: segGo rest []
      else segGo rest cur
    else segGo rest cur

/-- The apostrophe character. -/
def apos : Char := Char.ofNat 39

/-- The fixed discourse-marker prefix list of format_transcript. -/
def markers : List (List Char) :=
  [("now ").toList, ("next,").toList, ("however,").toList, ("but ").toList,
   ("so ").toList, ("therefore").toList, ("furthermore").toList,
   ("additionally").toList, ("finally").toList, ("in conclusion").toList,
   ("let me").toList, ("let").toList ++ [apos, 's'], ("okay").toList,
   ("alright").toList, ("well,").toList]

/-- Python str.lower(), ASCII model. -/
def pyLower (l : List Char) : List Char := l.map lowc

/-- sentence.lower().startswith(markers). -/
def startsWithMarker (s : List Char) : Bool :=
  markers.any (fun m => m.isPrefixOf (pyLower s))

/-- The paragraph-grouping loop of format_transcript over the sentence list:
    break after four sentences, after 500 characters with at least two
    sentences, or before a discourse-marker sentence (which then closes the
    previous paragraph and opens the next one). -/
def paraLoop : List (List Char) → List (List Char) → List (List Char) → List (List Char)
  | [], paragraphs, current =>
    if current.isEmpty then paragraphs
    else paragraphs ++ [List.intercalate [' '] current]
  | s :: ss, paragraphs, current =>
    let s := pyStrip s
    if s.isEmpty then paraLoop ss paragraphs current
    else
      let current1 := current ++ [s]
      let ptext := List.intercalate [' '] current1
      if current1.length ≥ 4 then paraLoop ss (paragraphs ++ [ptext]) []
      else if ptext.length > 500 && current1.length ≥ 2 then
        paraLoop ss (paragraphs ++ [ptext]) []
      else if startsWithMarker s then
        if current1.length > 1 then
          paraLoop ss
            (if current.isEmpty then paragraphs
             else paragraphs ++ [List.intercalate [' '] current]) [s]
        else paraLoop ss paragraphs current1
      else paraLoop ss paragraphs current1

/-- Python str.upper() of one character, ASCII model. -/
def pyUpperChar (c : Char) : Char :=
  if 'a' ≤ c && c ≤ 'z' then Char.ofNat (c.toNat - 32) else c

/-- A lowercase ASCII letter. -/
def isLowerC (c : Char) : Bool := 'a' ≤ c && c ≤ 'z'

/-- An uppercase ASCII letter. -/
def isUpperC (c : Char) : Bool := 'A' ≤ c && c ≤ 'Z'

/-- Terminal sentence punctuation. -/
def isPunct (c : Char) : Bool := c = '.' || c = '!' || c = '?'

/-- Post-processing of one paragraph: strip, drop if empty, uppercase the
    first character, append a period unless already ending in terminal
    punctuation. -/
def postParagraph (para : List Char) : Option (List Char) :=
  match pyStrip para with
  | [] => none
  | c :: rest =>
    let p2 := pyUpperChar c :: rest
    some (if isPunct (p2.getLast (List.cons_ne_nil _ _)) then p2 else p2 ++ ['.'])

/-- Cleaned text of one segment: newlines to spaces, strip, bracket
    annotations removed, strip. -/
def cleanSegText (t : List Char) : List Char :=
  pyStrip (removeBrackets (pyStrip (replaceNl t)))

/-- The nonempty cleaned texts collected from the segments, in order. -/
def allTextOf (segs : List Segment) : List (List Char) :=
  segs.filterMap (fun s =>
    let t := cleanSegText (textOf s)
    if t.isEmpty then none else some t)

/-- full_text: the cleaned texts joined by single spaces, whitespace runs
    collapsed. -/
def fullTextOf (segs : List Segment) : List Char :=
  collapseRuns isSpaceC (List.intercalate [' '] (allTextOf segs))

/-- The sentence list format_transcript works with: punctuation splitting,
    replaced by the word-count heuristic when at most three sentences stand
    against more than 200 characters of text. -/
def sentencesOf (segs : List Segment) : List (List Char) :=
  let full := fullTextOf segs
  let ss := splitSentences full
  if ss.length ≤ 3 && full.length > 200 then segGo (pyWords full) [] else ss

/-- The grouped paragraphs of format_transcript. -/
def paragraphsOf (segs : List Segment) : List (List Char) :=
  paraLoop (sentencesOf segs) [] []

/-- The post-processed paragraphs format_transcript joins into its output. -/
def formattedParagraphs (segs : List Segment) : List (List Char) :=
  (paragraphsOf segs).filterMap postParagraph

/-- SimpleFormatter.format_transcript: empty segment list yields the empty
    string, otherwise the formatted paragraphs joined by blank lines. -/
def format_transcript (segs : List Segment) : List Char :=
  if segs.isEmpty then []
  else List.intercalate ['\n', '\n'] (formattedParagraphs segs)

/-- The candidate-closing rule as the specification words it: the candidate,
    already c words long, closes after j more words at the first j where it
    has reached 15 words with the following word starting uppercase, or has
    reached 20 words regardless. -/
def firstClose (c : Nat) : List (List Char) → Option Nat
  | [] => none
  | _ :: rest =>
    if (15 ≤ c + 1 ∧ nextUpper rest = true) ∨ 20 ≤ c + 1 then some 1
    else (firstClose (c + 1) rest).map (· + 1)

/-- Word re-segmentation as the specification describes it: repeatedly close
    the earliest candidate the rule above allows; trailing words form a
    final sentence. Fuel only forces termination and is sufficient at the
    wrapper. -/
def specSegAux : Nat → List (List Char) → List (List Char)
  | 0, ws => if ws.isEmpty then [] else [List.intercalate [' '] ws]
  | fuel + 1, ws =>
    match firstClose 0 ws with
    | some j => List.intercalate [' '] (ws.take j) :: specSegAux fuel (ws.drop j)
    | none => if ws.isEmpty then [] else [List.intercalate [' '] ws]

/-- Specification-side word re-segmentation. -/
def specResegment (ws : List (List Char)) : List (List Char) :=
  specSegAux (ws.length + 1) ws

/-- Alternatives, in the backtracking preference order of the regex engine,
    for the timestamp group of the chapter patterns, one or two digits, a
    colon, two digits, optionally a colon and two more digits (greedy, so
    two leading digits before one, seconds included before left out):
    captured text and remainder. -/
def tsAlts (l : List Char) : List (List Char × List Char) :=
  let core :=
    (match l with
     | d1 :: d2 :: ':' :: d3 :: d4 :: rest =>
       if isDigitC d1 && isDigitC d2 && isDigitC d3 && isDigitC d4 then
         [([d1, d2, ':', d3, d4], rest)] else []
     | _ => []) ++
    (match l with
     | d1 :: ':' :: d3 :: d4 :: rest =>
       if isDigitC d1 && isDigitC d3 && isDigitC d4 then
         [([d1, ':', d3, d4], rest)] else []
     | _ => [])
  core.flatMap (fun (ts, rest) =>
    match rest with
    | ':' :: e1 :: e2 :: rest2 =>
      if isDigitC e1 && isDigitC e2 then [(ts ++ [':', e1, e2], rest2), (ts, rest)]
      else [(ts, rest)]
    | _ => [(ts, rest)])

/-- Remainders after consuming leading whitespace, longest first (the greedy
    whitespace-star alternatives). -/
def wsAlts : List Char → List (List Char)
  | [] => [[]]
  | c :: cs => if isSpaceC c then wsAlts cs ++ [c :: cs] else [c :: cs]

/-- The separator class of pattern 1: hyphen, en dash or em dash. -/
def isDash1 (c : Char) : Bool := c = '-' || c = '–' || c = '—'

/-- The separator class of pattern 3: colon, hyphen, en dash or em dash. -/
def isDash3 (c : Char) : Bool := c = ':' || c = '-' || c = '–' || c = '—'

/-- Remainders after the separator of chapter pattern k, in preference
    order: pattern 1 is whitespace, a dash, whitespace; pattern 2 is
    one-or-more whitespace; pattern 3 is whitespace, a colon or dash,
    whitespace. -/
def sepAlts : Nat → List Char → List (List Char)
  | 1, l => (wsAlts l).flatMap (fun r =>
      match r with
      | c :: cs => if isDash1 c then wsAlts cs else []
      | [] => [])
  | 2, l =>
      (match l with
       | c :: cs => if isSpaceC c then wsAlts cs else []
       | [] => [])
  | 3, l => (wsAlts l).flatMap (fun r =>
      match r with
      | c :: cs => if isDash3 c then wsAlts cs else []
      | [] => [])
  | _, _ => []

/-- The timestamp alternative of the lookahead, one or two digits, colon,
    two digits. -/
def laTS (l : List Char) : Bool :=
  (match l with
   | d1 :: d2 :: ':' :: d3 :: d4 :: _ =>
     isDigitC d1 && isDigitC d2 && isDigitC d3 && isDigitC d4
   | _ => false) ||
  (match l with
   | d1 :: ':' :: d3 :: d4 :: _ => isDigitC d1 && isDigitC d3 && isDigitC d4
   | _ => false)

/-- The lookahead closing the title group: a newline, a timestamp, or the
    end of input (with MULTILINE the end-of-line anchor also fires before a
    newline, which the first alternative already covers). -/
def lookaheadOk (l : List Char) : Bool :=
  (match l with | '\n' :: _ => true | _ => false) || laTS l || l.isEmpty

/-- The lazy title group with its lookahead: add characters (never a
    newline) one at a time, stopping at the first position where the
    lookahead holds. -/
def titleLazy : List Char → List Char → Option (List Char × List Char)
  | _, [] => none
  | acc, c :: cs =>
    if c = '\n' then none
    else
      let acc := acc ++ [c]
      if lookaheadOk cs then some (acc, cs) else titleLazy acc cs

/-- Full match attempt of chapter pattern k at the head of l, in the
    engine's preference order; yields the two captures and the remainder
    after the match. -/
def matchChapterAt (k : Nat) (l : List Char) : Option ((List Char × List Char) × List Char) :=
  (tsAlts l).findSome? (fun p =>
    (sepAlts k p.2).findSome? (fun r2 =>
      (titleLazy [] r2).map (fun q => ((p.1, q.1), q.2))))

/-- re.findall of chapter pattern k: leftmost matches, the scan resuming
    after each match. Fuel only forces termination (every match consumes at
    least the timestamp) and is sufficient at the wrapper. -/
def findallAux (k : Nat) : Nat → List Char → List (List Char × List Char)
  | 0, _ => []
  | _ + 1, [] => []
  | fuel + 1, l@(_ :: cs) =>
    match matchChapterAt k l with
    | some (m, rest) => m :: findallAux k fuel rest
    | none => findallAux k fuel cs

/-- All matches of chapter pattern k in a text. -/
def findallChapters (k : Nat) (text : List Char) : List (List Char × List Char) :=
  findallAux k (text.length + 1) text

/-- Characters the title cleanup collapses first: newline, carriage return,
    tab. -/
def isNRT (c : Char) : Bool := c = '\n' || c = '\x0d' || c = '\t'

/-- Title cleanup: strip, then newline/carriage-return/tab runs to one
    space, then whitespace runs to one space, then strip. -/
def cleanTitle (t : List Char) : List Char :=
  pyStrip (collapseRuns isSpaceC (collapseRuns isNRT (pyStrip t)))

/-- Backfill inside the description loop: when chapters exist and the last
    one has a null end, give it the new start time. -/
def backfillLast (acc : List ChapterData) (v : Int) : List ChapterData :=
  if lastEndNone acc then setLastEnd acc v else acc

/-- The per-match loop of _parse_chapters_from_text: parse the timestamp,
    clean the title, silently skip unless both succeed, and backfill the
    previous chapter's null end with the new start before appending. -/
def buildLoop : List (List Char × List Char) → List ChapterData → List ChapterData
  | [], acc => acc
  | (ts, title) :: ms, acc =>
    let start := _parse_timestamp (pyStrip ts)
    let t := cleanTitle title
    match start with
    | some s =>
      if t.isEmpty then buildLoop ms acc
      else buildLoop ms (backfillLast acc s ++ [⟨t, s, none, ts⟩])
    | none => buildLoop ms acc

/-- Successor-style reformulation of the per-match loop, used to reason
    about it: carry the chapter built from the previous usable match and
    resolve its null end from the next usable start. -/
def buildChain (c : ChapterData) : List (List Char × List Char) → List ChapterData
  | [] => [c]
  | (ts, title) :: ms =>
    match _parse_timestamp (pyStrip ts) with
    | some s =>
      if (cleanTitle title).isEmpty then buildChain c ms
      else
        (if c.end_time = none then { c with end_time := some s } else c) ::
          buildChain ⟨cleanTitle title, s, none, ts⟩ ms
    | none => buildChain c ms

/-- The pattern loop of _parse_chapters_from_text: try the three patterns in
    order; when a pattern has matches, extend the chapter list from them;
    stop as soon as that list is nonempty. -/
def patLoop (text : List Char) : List Nat → List ChapterData → List ChapterData
  | [], chapters => chapters
  | k :: ks, chapters =>
    let ms := findallChapters k text
    if ms.isEmpty then patLoop text ks chapters
    else
      let chapters := buildLoop ms chapters
      if chapters.isEmpty then patLoop text ks chapters else chapters

/-- ChapterService description strategy applied to a description text. -/
def _parse_chapters_from_text (text : List Char) : List ChapterData :=
  patLoop text [1, 2, 3] []

/-- Chapters one pattern alone yields on a text. -/
def patternChapters (k : Nat) (text : List Char) : List ChapterData :=
  buildLoop (findallChapters k text) []

/-- The chapter list of the first pattern that yields any usable chapter
    (a match whose timestamp parses and whose cleaned title is nonempty),
    as the amended claim words it. -/
def firstUsableChapters (text : List Char) : List ChapterData :=
  (([1, 2, 3].map (fun k => patternChapters k text)).find? (fun c => !c.isEmpty)).getD []

/-- Parsed start times of the usable matches, in match order. -/
def usableStarts (ms : List (List Char × List Char)) : List Int :=
  ms.filterMap (fun m =>
    match _parse_timestamp (pyStrip m.1) with
    | some s => if (cleanTitle m.2).isEmpty then none else some s
    | none => none)

/-- A character of the video-id class: ASCII letters, digits, underscore,
    hyphen. -/
def isIdChar (c : Char) : Bool :=
  ('a' ≤ c && c ≤ 'z') || ('A' ≤ c && c ≤ 'Z') || ('0' ≤ c && c ≤ '9') || c = '_' || c = '-'

/-- Exactly eleven id-class characters. -/
def validId (l : List Char) : Bool := l.length = 11 && l.all isIdChar

/-- URLExtractor._is_valid_video_id: re.match of eleven id-class characters
    against the whole candidate; the dollar anchor also accepts one trailing
    newline after the eleven characters. -/
def _is_valid_video_id (l : List Char) : Bool :=
  validId l || (l.length = 12 && (l.take 11).all isIdChar && l.getLast? = some '\n')

/-- Case-insensitive literal match: consume the literal from the head of the
    text, yielding the remainder. -/
def matchLit : List Char → List Char → Option (List Char)
  | [], l => some l
  | _ :: _, [] => none
  | p :: ps, c :: cs => if lowc c = lowc p then matchLit ps cs else none

/-- Consume exactly n id-class characters, yielding them and the remainder. -/
def takeIdChars : Nat → List Char → Option (List Char × List Char)
  | 0, l => some ([], l)
  | _ + 1, [] => none
  | n + 1, c :: cs =>
    if isIdChar c then (takeIdChars n cs).map (fun p => (c :: p.1, p.2)) else none

/-- First-wins choice between two optional results. -/
def orO : Option α → Option α → Option α
  | some x, _ => some x
  | none, b => b

/-- The eleven-character capture group closing each URL pattern. -/
def idTail (r : List Char) : Option (List Char) :=
  (takeIdChars 11 r).map (fun p => p.1)

/-- The literal core of a URL pattern followed by the capture group. -/
def matchCore (lit : List Char) (l : List Char) : Option (List Char) :=
  match matchLit lit l with
  | some r => idTail r
  | none => none

/-- The www. alternative inside a pattern that carries one. -/
def wwwBranch (lit : List Char) (l : List Char) : Option (List Char) :=
  match matchLit (("www.").toList) l with
  | some r => matchCore lit r
  | none => none

/-- The optional www. of a URL pattern (tried before its absence), then the
    literal core. -/
def contWww (www : Bool) (lit : List Char) (l : List Char) : Option (List Char) :=
  if www then orO (wwwBranch lit l) (matchCore lit l)
  else matchCore lit l

/-- One scheme alternative: the scheme literal, then the rest of the
    pattern. -/
def schemeBranch (www : Bool) (lit : List Char) (sch : List Char) (l : List Char) :
    Option (List Char) :=
  match matchLit sch l with
  | some r => contWww www lit r
  | none => none

/-- One URL pattern matched at the head of l: the optional scheme (https
    preferred over http preferred over absence), the optional www where the
    pattern has one, the literal core, the capture. -/
def matchPatAt (www : Bool) (lit : List Char) (l : List Char) : Option (List Char) :=
  orO (schemeBranch www lit (("https://").toList) l)
    (orO (schemeBranch www lit (("http://").toList) l) (contWww www lit l))

/-- re.search of one URL pattern: the match at the leftmost possible
    position wins. -/
def searchPat (www : Bool) (lit : List Char) : List Char → Option (List Char)
  | [] => none
  | l@(_ :: cs) => orO (matchPatAt www lit l) (searchPat www lit cs)

/-- The anchored bare-id pattern: the whole string is the eleven-character
    capture. -/
def matchBare (l : List Char) : Option (List Char) :=
  match takeIdChars 11 l with
  | some (v, []) => some v
  | _ => none

/-- One step of the pattern loop: a match whose capture passes the validator
    returns; otherwise the loop moves on. -/
def patStep (r : Option (List Char)) (rest : Option (List Char)) : Option (List Char) :=
  match r with
  | some vid => if _is_valid_video_id vid then some vid else rest
  | none => rest

/-- URLExtractor._extract_with_patterns: the seven patterns in source order. -/
def _extract_with_patterns (url : List Char) : Option (List Char) :=
  patStep (searchPat true (("youtube.com/watch?v=").toList) url)
    (patStep (searchPat false (("youtu.be/").toList) url)
      (patStep (searchPat true (("youtube.com/embed/").toList) url)
        (patStep (searchPat true (("youtube.com/shorts/").toList) url)
          (patStep (searchPat true (("youtube.com/live/").toList) url)
            (patStep (searchPat false (("m.youtube.com/watch?v=").toList) url)
              (patStep (matchBare url) none))))))

/-- C0 control characters and space, which urlsplit strips from both ends. -/
def isC0Sp (c : Char) : Bool := c.toNat ≤ 32

/-- The parts of a parsed URL the extractor reads. -/
structure PyUrl where
  hostname : Option (List Char)
  path : List Char
  query : List Char

/-- The netloc part after the last at sign. -/
def afterLastAt (l : List Char) : List Char :=
  (l.reverse.takeWhile (fun c => c ≠ '@')).reverse

/-- The host of a netloc: the bracketed part when brackets are present,
    otherwise everything before the first colon. -/
def hostOf (h : List Char) : List Char :=
  if h.contains '[' then ((h.dropWhile (fun c => c ≠ '[')).drop 1).takeWhile (fun c => c ≠ ']')
  else h.takeWhile (fun c => c ≠ ':')

/-- urlparse of a string that begins with a literal http:// or https://
    scheme (the extractor guarantees one): WHATWG sanitizing (strip
    C0-or-space from the ends, remove tab, carriage return, newline), then
    netloc up to slash, question mark or hash, the lowercased host out of
    it, path up to question mark or hash, query up to hash. -/
def pyUrlparse (u0 : List Char) : PyUrl :=
  let u1 := ((u0.dropWhile isC0Sp).reverse.dropWhile isC0Sp).reverse
  let u := u1.filter (fun c => !(c = '\t' || c = '\x0d' || c = '\n'))
  let afterScheme :=
    match matchLit (("https://").toList) u with
    | some r => r
    | none =>
      match matchLit (("http://").toList) u with
      | some r => r
      | none => u
  let netloc := afterScheme.takeWhile (fun c => !(c = '/' || c = '?' || c = '#'))
  let rest := afterScheme.drop netloc.length
  let path := rest.takeWhile (fun c => !(c = '?' || c = '#'))
  let rest2 := rest.drop path.length
  let query :=
    match rest2 with
    | '?' :: qs => qs.takeWhile (fun c => c ≠ '#')
    | _ => []
  let host := hostOf (afterLastAt netloc)
  ⟨if host.isEmpty then none else some (pyLower host), path, query⟩

/-- A hex digit value. -/
def hexVal (c : Char) : Option Nat :=
  if '0' ≤ c && c ≤ '9' then some (c.toNat - 48)
  else if 'a' ≤ c && c ≤ 'f' then some (c.toNat - 87)
  else if 'A' ≤ c && c ≤ 'F' then some (c.toNat - 55)
  else none

/-- Query unquoting: plus to space, percent-hex-hex to the byte (multi-byte
    UTF-8 sequences are outside the modelled input space); malformed percent
    escapes stay as they are. -/
def pctDecode : List Char → List Char
  | [] => []
  | '+' :: cs => ' ' :: pctDecode cs
  | '%' :: a :: b :: cs =>
    match hexVal a, hexVal b with
    | some x, some y => Char.ofNat (16 * x + y) :: pctDecode cs
    | _, _ => '%' :: pctDecode (a :: b :: cs)
  | c :: cs => c :: pctDecode cs

/-- parse_qs restricted to what the extractor reads: the first value of the
    key v; pairs without an equals sign or with an empty raw value are
    skipped, names and values are unquoted. -/
def parseQsV (q : List Char) : Option (List Char) :=
  (splitOnC '&' q).findSome? (fun pair =>
    if pair.isEmpty then none
    else if pair.contains '=' then
      let n := pair.takeWhile (fun c => c ≠ '=')
      let v := (pair.dropWhile (fun c => c ≠ '=')).drop 1
      if v.isEmpty then none
      else if pctDecode n = ['v'] then some (pctDecode v) else none
    else none)

/-- The text after the first occurrence of pat, if pat occurs. -/
def afterFirstSub (pat : List Char) : List Char → Option (List Char)
  | [] => none
  | l@(_ :: cs) =>
    if pat.isPrefixOf l then some (l.drop pat.length) else afterFirstSub pat cs

/-- The prefix of l up to the next occurrence of pat. -/
def takeUntilSub (pat : List Char) : List Char → List Char
  | [] => []
  | l@(c :: cs) => if pat.isPrefixOf l then [] else c :: takeUntilSub pat cs

/-- path.split(marker)[1].split(questionmark)[0]: the piece of the path
    after the first marker occurrence up to the next one, cut at a question
    mark. -/
def pathPiece (marker : List Char) (path : List Char) : List Char :=
  match afterFirstSub marker path with
  | some rest => (takeUntilSub marker rest).takeWhile (fun c => c ≠ '?')
  | none => []

/-- URLExtractor._extract_with_urlparse: prepend https:// when no literal
    http:// or https:// prefix is present, parse, then apply the
    host-specific path rules, validating every candidate. -/
def _extract_with_urlparse (url : List Char) : Option (List Char) :=
  let url :=
    if (("http://").toList).isPrefixOf url || (("https://").toList).isPrefixOf url then url
    else ("https://").toList ++ url
  let p := pyUrlparse url
  match p.hostname with
  | some h =>
    if h = ("www.youtube.com").toList || h = ("youtube.com").toList
        || h = ("m.youtube.com").toList then
      if p.path = ("/watch").toList then
        match parseQsV p.query with
        | some vid => if !vid.isEmpty && _is_valid_video_id vid then some vid else none
        | none => none
      else if (("/embed/").toList).isPrefixOf p.path then
        let vid := pathPiece (("/embed/").toList) p.path
        if _is_valid_video_id vid then some vid else none
      else if (("/shorts/").toList).isPrefixOf p.path then
        let vid := pathPiece (("/shorts/").toList) p.path
        if _is_valid_video_id vid then some vid else none
      else if (("/live/").toList).isPrefixOf p.path then
        let vid := pathPiece (("/live/").toList) p.path
        if _is_valid_video_id vid then some vid else none
      else none
    else if h = ("youtu.be").toList then
      let vid := p.path.drop 1
      if _is_valid_video_id vid then some vid else none
    else none
  | none => none

/-- URLExtractor.extract_video_id: reject the empty string, strip, try the
    regex patterns in order, then the urlparse fallback; a total function,
    never raising. -/
def extract_video_id (url : List Char) : Option (List Char) :=
  if url.isEmpty then none
  else
    let url := pyStrip url
    match _extract_with_patterns url with
    | some vid => some vid
    | none => _extract_with_urlparse url

/-- The twenty non-bare supported URL shapes of the claim, as literal
    prefixes ahead of the eleven-character identifier (each youtube.com form
    with and without scheme and www, the short and mobile forms with and
    without scheme). -/
def shapePrefixes : List (List Char) :=
  [("https://www.youtube.com/watch?v=").toList, ("https://youtube.com/watch?v=").toList,
   ("www.youtube.com/watch?v=").toList, ("youtube.com/watch?v=").toList,
   ("https://youtu.be/").toList, ("youtu.be/").toList,
   ("https://www.youtube.com/embed/").toList, ("https://youtube.com/embed/").toList,
   ("www.youtube.com/embed/").toList, ("youtube.com/embed/").toList,
   ("https://www.youtube.com/shorts/").toList, ("https://youtube.com/shorts/").toList,
   ("www.youtube.com/shorts/").toList, ("youtube.com/shorts/").toList,
   ("https://www.youtube.com/live/").toList, ("https://youtube.com/live/").toList,
   ("www.youtube.com/live/").toList, ("youtube.com/live/").toList,
   ("https://m.youtube.com/watch?v=").toList, ("m.youtube.com/watch?v=").toList]

/-- Recognize the whole input as one shape prefix followed by a valid id. -/
def tryShape (p s : List Char) : Option (List Char) :=
  if p.isPrefixOf s && validId (s.drop p.length) then some (s.drop p.length) else none

/-- The supported-URL-shape reading of the claim: the input is exactly one
    of the listed shapes (or a bare valid id) and the embedded identifier is
    returned; anything else is no shape. -/
def supportedShapeId (s : List Char) : Option (List Char) :=
  orO (shapePrefixes.findSome? (fun p => tryShape p s))
    (if validId s then some s else none)

/-- Exceptions the endpoint handles: the FastAPI HTTPException carrying a
    status and detail, or any other exception carrying its message. -/
inductive PyExn where
  | http (status : Nat) (detail : List Char)
  | other (msg : List Char)
deriving Repr, DecidableEq

/-- str(e): starlette renders an HTTPException as status, colon, space,
    detail; other exceptions are read through their message. -/
def strOfExn : PyExn → List Char
  | .http s d => natDigits s ++ (": ").toList ++ d
  | .other m => m

/-- The provider calls the endpoint can issue. -/
inductive ProviderCall where
  | transcript (videoId : List Char)
  | chapters (videoId : List Char)
deriving Repr, DecidableEq

/-- What the transcript service yields on success: title, transcript text,
    duration. -/
structure TranscriptData where
  title : List Char
  transcript : List Char
  duration : Int

/-- The TranscriptResponse body of a successful request. -/
structure TranscriptResponseData where
  video_id : List Char
  title : List Char
  transcript : List Char
  chapters : List ChapterData
  duration : Int

/-- The try body of the get_transcript endpoint, parameterized by the two
    services it awaits (the transcript service may raise; get_chapters
    absorbs its own errors and is total): the outcome plus the provider
    calls issued. -/
def getTranscriptBody (tsvc : List Char → Except PyExn TranscriptData)
    (csvc : List Char → List ChapterData) (url : List Char) :
    Except PyExn TranscriptResponseData × List ProviderCall :=
  match extract_video_id url with
  | none => (.error (.http 400 (("Invalid YouTube URL").toList)), [])
  | some vid =>
    match tsvc vid with
    | .error e => (.error e, [.transcript vid])
    | .ok td =>
      let ch := csvc vid
      (.ok ⟨vid, td.title, td.transcript, ch, td.duration⟩,
       [.transcript vid, .chapters vid])

/-- The get_transcript endpoint of app.main: the blanket except around the
    body turns any exception escaping it, the invalid-URL HTTPException
    included, into an HTTPException with status 500 and str(e) as detail. -/
def get_transcript (tsvc : List Char → Except PyExn TranscriptData)
    (csvc : List Char → List ChapterData) (url : List Char) :
    Except PyExn TranscriptResponseData × List ProviderCall :=
  match getTranscriptBody tsvc csvc url with
  | (.error e, log) => (.error (.http 500 (strOfExn e)), log)
  | ok => ok

/-- The HTTP status FastAPI sends for an endpoint outcome. -/
def responseStatus : Except PyExn TranscriptResponseData → Nat
  | .error (.http s _) => s
  | .error (.other _) => 500
  | .ok _ => 200

/-- The canonical two-field timestamp rendering, exactly what format
    produces below one hour. -/
def ts2 (m s : Nat) : List Char := pad2 (m : Int) ++ (':' :: pad2 (s : Int))

/-- The canonical three-field timestamp rendering, exactly what format
    produces from one hour up. -/
def ts3 (h m s : Nat) : List Char :=
  pad2 (h : Int) ++ (':' :: (pad2 (m : Int) ++ (':' :: pad2 (s : Int))))

/- ## Helper lemmas: characters, digits, splitting -/

lemma char_toNat_ofNat {k : Nat} (h : k < 55296) : (Char.ofNat k).toNat = k := by
  unfold Char.ofNat
  rw [dif_pos (Or.inl h)]
  rfl

lemma char_le_iff {a b : Char} : a ≤ b ↔ a.toNat ≤ b.toNat := Iff.rfl

lemma isSpaceC_elim {c : Char} (h : isSpaceC c = true) :
    c = ' ' ∨ c = '\t' ∨ c = '\n' ∨ c = '\x0d' ∨ c = '\x0c' ∨ c = '\x0b' := by
  simp [isSpaceC] at h
  tauto

lemma not_space_of_digit {c : Char} (h : isDigitC c = true) : isSpaceC c = false := by
  cases hx : isSpaceC c
  · rfl
  · rcases isSpaceC_elim hx with rfl | rfl | rfl | rfl | rfl | rfl <;> exact absurd h (by decide)

lemma digit_ne_colon {c : Char} (h : isDigitC c = true) : c ≠ ':' := by
  intro hc
  rw [hc] at h
  exact absurd h (by decide)

lemma digitsVal_cons_zero (l : List Char) : digitsVal ('0' :: l) = digitsVal l := by
  simp [digitsVal, List.foldl]

lemma digitsVal_singleton (c : Char) : digitsVal [c] = c.toNat - 48 := by
  simp [digitsVal, List.foldl]

lemma digitsVal_append_digit (l : List Char) (c : Char) :
    digitsVal (l ++ [c]) = digitsVal l * 10 + (c.toNat - 48) := by
  simp [digitsVal, List.foldl_append, List.foldl]

lemma isDigitC_ofNat_digit {n : Nat} (h : n < 10) : isDigitC (Char.ofNat (48 + n)) = true := by
  have ht : (Char.ofNat (48 + n)).toNat = 48 + n := char_toNat_ofNat (by omega)
  simp only [isDigitC, Bool.and_eq_true, decide_eq_true_eq]
  constructor <;> (rw [char_le_iff, ht]; simp; try omega)

lemma natDigitsAux_spec :
    ∀ fuel n, n < fuel →
      digitsVal (natDigitsAux fuel n) = n ∧ (natDigitsAux fuel n).all isDigitC = true ∧
        natDigitsAux fuel n ≠ [] := by
  intro fuel
  induction fuel with
  | zero => intro n hn; omega
  | succ f ih =>
    intro n hn
    unfold natDigitsAux
    by_cases h : n < 10
    · rw [if_pos h]
      refine ⟨?_, ?_, by simp⟩
      · rw [digitsVal_singleton, char_toNat_ofNat (by omega)]
        omega
      · simp [isDigitC_ofNat_digit h]
    · rw [if_neg h]
      have hlt : n / 10 < f := by omega
      obtain ⟨h1, h2, h3⟩ := ih (n / 10) hlt
      refine ⟨?_, ?_, by simp⟩
      · rw [digitsVal_append_digit, h1, char_toNat_ofNat (by omega)]
        omega
      · simp [List.all_append, h2, isDigitC_ofNat_digit (Nat.mod_lt n (by omega))]

lemma natDigits_val (n : Nat) : digitsVal (natDigits n) = n :=
  (natDigitsAux_spec _ n (by omega)).1

lemma natDigits_all_digit (n : Nat) : (natDigits n).all isDigitC = true :=
  (natDigitsAux_spec _ n (by omega)).2.1

lemma natDigits_ne_nil (n : Nat) : natDigits n ≠ [] :=
  (natDigitsAux_spec _ n (by omega)).2.2

lemma all_not_space_of_all_digit {l : List Char} (h : l.all isDigitC = true) :
    l.all (fun c => !isSpaceC c) = true := by
  simp only [List.all_eq_true] at h ⊢
  intro c hc
  simp [not_space_of_digit (h c hc)]

lemma dropWhile_eq_self_of_all {p : Char → Bool} {l : List Char}
    (h : l.all (fun c => !p c) = true) : l.dropWhile p = l := by
  cases l with
  | nil => rfl
  | cons c cs =>
    simp only [List.all_cons, Bool.and_eq_true, Bool.not_eq_eq_eq_not, Bool.not_true] at h
    simp [List.dropWhile, h.1]

lemma pyStrip_eq_self {l : List Char} (h : l.all (fun c => !isSpaceC c) = true) :
    pyStrip l = l := by
  unfold pyStrip
  rw [dropWhile_eq_self_of_all h, dropWhile_eq_self_of_all (by simpa using h), List.reverse_reverse]

lemma pyInt_digits {l : List Char} (hne : l ≠ []) (hd : l.all isDigitC = true) :
    pyInt l = some ((digitsVal l : Nat) : Int) := by
  unfold pyInt
  rw [pyStrip_eq_self (all_not_space_of_all_digit hd)]
  cases l with
  | nil => exact absurd rfl hne
  | cons c cs =>
    have hc : isDigitC c = true := by
      simp only [List.all_cons, Bool.and_eq_true] at hd
      exact hd.1
    have h1 : c ≠ '+' := by intro h; rw [h] at hc; exact absurd hc (by decide)
    have h2 : c ≠ '-' := by intro h; rw [h] at hc; exact absurd hc (by decide)
    simp [h1, h2, hd]

lemma intRepr_natCast (n : Nat) : intRepr (n : Int) = natDigits n := by
  unfold intRepr
  rw [if_neg (by omega)]
  simp

lemma pad2_natCast (n : Nat) :
    pad2 (n : Int) = if (natDigits n).length < 2 then '0' :: natDigits n else natDigits n := by
  unfold pad2
  rw [intRepr_natCast]

lemma pad2_spec (n : Nat) :
    (pad2 (n : Int)).all isDigitC = true ∧ pad2 (n : Int) ≠ [] ∧
      digitsVal (pad2 (n : Int)) = n := by
  have h1 := natDigits_val n
  have h2 := natDigits_all_digit n
  have h3 := natDigits_ne_nil n
  rw [pad2_natCast]
  have h0 : isDigitC '0' = true := by decide
  by_cases h : (natDigits n).length < 2 <;>
    simp [h, h0, h1, h2, h3, digitsVal_cons_zero]

lemma pyInt_pad2 (n : Nat) : pyInt (pad2 (n : Int)) = some (n : Int) := by
  obtain ⟨ha, hne, hv⟩ := pad2_spec n
  rw [pyInt_digits hne ha, hv]

lemma pad2_ne_colon (n : Nat) : ∀ c ∈ pad2 (n : Int), c ≠ ':' := by
  intro c hc
  have ha := (pad2_spec n).1
  simp only [List.all_eq_true] at ha
  exact digit_ne_colon (ha c hc)

lemma splitOnC_ne_nil {sep : Char} : ∀ l, splitOnC sep l ≠ [] := by
  intro l
  cases l with
  | nil => simp [splitOnC]
  | cons c cs =>
    unfold splitOnC
    rcases h : splitOnC sep cs with _ | ⟨t, ts⟩
    · simp
    · by_cases hc : c = sep <;> simp [hc]

lemma splitOnC_exists (sep : Char) (l : List Char) :
    ∃ t ts, splitOnC sep l = t :: ts := by
  rcases h : splitOnC sep l with _ | ⟨t, ts⟩
  · exact absurd h (splitOnC_ne_nil l)
  · exact ⟨t, ts, rfl⟩

lemma splitOnC_cons_eq {sep c : Char} {cs t : List Char} {ts : List (List Char)}
    (h : splitOnC sep cs = t :: ts) :
    splitOnC sep (c :: cs) = if c = sep then [] :: t :: ts else (c :: t) :: ts := by
  unfold splitOnC
  rw [h]

lemma splitOnC_no_sep {sep : Char} :
    ∀ {A : List Char}, (∀ c ∈ A, c ≠ sep) → splitOnC sep A = [A] := by
  intro A
  induction A with
  | nil => intro _; rfl
  | cons c cs ih =>
    intro h
    rw [splitOnC_cons_eq (ih (fun x hx => h x (List.mem_cons_of_mem _ hx)))]
    rw [if_neg (h c (List.mem_cons_self _ _))]

lemma splitOnC_append {sep : Char} {B : List Char} :
    ∀ {A : List Char}, (∀ c ∈ A, c ≠ sep) →
      splitOnC sep (A ++ sep :: B) = A :: splitOnC sep B := by
  intro A
  induction A with
  | nil =>
    intro _
    obtain ⟨t, ts, hb⟩ := splitOnC_exists sep B
    show splitOnC sep (sep :: B) = [] :: splitOnC sep B
    rw [splitOnC_cons_eq hb, if_pos rfl, hb]
  | cons c cs ih =>
    intro h
    show splitOnC sep (c :: (cs ++ sep :: B)) = (c :: cs) :: splitOnC sep B
    rw [splitOnC_cons_eq (ih (fun x hx => h x (List.mem_cons_of_mem _ hx)))]
    rw [if_neg (h c (List.mem_cons_self _ _))]

/- ## C8: parse of format round trip -/

/-- C8: for every non-negative integer s, parsing the formatted timestamp
    returns s again; format renders MM:SS below one hour and HH:MM:SS
    otherwise, with zero-padded two-digit fields. -/
theorem c8_parse_format_roundtrip (n : Nat) :
    _parse_timestamp (_format_timestamp (n : Int)) = some (n : Int) := by
  simp only [_format_timestamp]
  have hh : (n : Int) / 3600 = ((n / 3600 : Nat) : Int) := by omega
  have hm : ((n : Int) % 3600) / 60 = ((n % 3600 / 60 : Nat) : Int) := by omega
  have hs : (n : Int) % 60 = ((n % 60 : Nat) : Int) := by omega
  rw [hh, hm, hs]
  by_cases hbig : 3600 ≤ n
  · rw [if_pos (by omega)]
    unfold _parse_timestamp
    rw [splitOnC_append (pad2_ne_colon _), splitOnC_append (pad2_ne_colon _),
      splitOnC_no_sep (pad2_ne_colon _)]
    simp only [pyInt_pad2]
    congr 1
    omega
  · rw [if_neg (by omega)]
    unfold _parse_timestamp
    rw [splitOnC_append (pad2_ne_colon _), splitOnC_no_sep (pad2_ne_colon _)]
    simp only [pyInt_pad2]
    congr 1
    omega

/- ## C7: format of parse on timestamp strings -/

/-- C7 as stated fails on the code: 5:3 is a colon-delimited timestamp with
    two numeric groups, parse accepts it as 303 seconds, yet format renders
    303 as the normalized 05:03, not 5:3. -/
theorem c7_counterexample :
    (splitOnC ':' (("5:3").toList)).length = 2 ∧
    (∀ p ∈ splitOnC ':' (("5:3").toList), p ≠ [] ∧ p.all isDigitC = true) ∧
    _parse_timestamp (("5:3").toList) = some 303 ∧
    _format_timestamp 303 = ("05:03").toList ∧
    ("05:03").toList ≠ ("5:3").toList := by decide

/-- C7 amended: the round trip format (parse s) = s holds for the canonical
    timestamp strings, zero-padded two-digit minute and second fields both
    at most 59, with either no hour field or an hour field of at least one
    hour rendered like format renders it; parse still returns null for
    1:2:3:4 and for ab:cd. -/
theorem c7_roundtrip_amended :
    (∀ m s : Nat, m ≤ 59 → s ≤ 59 →
      _parse_timestamp (ts2 m s) = some ((m : Int) * 60 + (s : Int)) ∧
      _format_timestamp ((m : Int) * 60 + (s : Int)) = ts2 m s) ∧
    (∀ h m s : Nat, 1 ≤ h → m ≤ 59 → s ≤ 59 →
      _parse_timestamp (ts3 h m s) =
        some ((h : Int) * 3600 + (m : Int) * 60 + (s : Int)) ∧
      _format_timestamp ((h : Int) * 3600 + (m : Int) * 60 + (s : Int)) = ts3 h m s) ∧
    _parse_timestamp (("1:2:3:4").toList) = none ∧
    _parse_timestamp (("ab:cd").toList) = none := by
  refine ⟨?_, ?_, by decide, by decide⟩
  · intro m s hm hs
    constructor
    · unfold ts2 _parse_timestamp
      rw [splitOnC_append (pad2_ne_colon _), splitOnC_no_sep (pad2_ne_colon _)]
      simp only [pyInt_pad2]
    · simp only [_format_timestamp, ts2]
      have hh : ((m : Int) * 60 + (s : Int)) / 3600 = 0 := by omega
      have hmm : (((m : Int) * 60 + (s : Int)) % 3600) / 60 = (m : Int) := by omega
      have hss : ((m : Int) * 60 + (s : Int)) % 60 = (s : Int) := by omega
      rw [hh, hmm, hss, if_neg (by omega)]
  · intro h m s hh1 hm hs
    constructor
    · unfold ts3 _parse_timestamp
      rw [splitOnC_append (pad2_ne_colon _), splitOnC_append (pad2_ne_colon _),
        splitOnC_no_sep (pad2_ne_colon _)]
      simp only [pyInt_pad2]
    · simp only [_format_timestamp, ts3]
      have hhh : ((h : Int) * 3600 + (m : Int) * 60 + (s : Int)) / 3600 = (h : Int) := by
        omega
      have hmm :
          (((h : Int) * 3600 + (m : Int) * 60 + (s : Int)) % 3600) / 60 = (m : Int) := by
        omega
      have hss : ((h : Int) * 3600 + (m : Int) * 60 + (s : Int)) % 60 = (s : Int) := by
        omega
      rw [hhh, hmm, hss, if_pos (by omega)]

/-- Witness for the amended C7 at concrete inputs. -/
theorem c7_roundtrip_amended_witness :
    _parse_timestamp (ts2 5 3) = some 303 ∧ _format_timestamp 303 = ts2 5 3 ∧
    _parse_timestamp (ts3 1 15 0) = some 4500 ∧ _format_timestamp 4500 = ts3 1 15 0 := by
  obtain ⟨h2, h3, _, _⟩ := c7_roundtrip_amended
  obtain ⟨a1, a2⟩ := h2 5 3 (by omega) (by omega)
  obtain ⟨b1, b2⟩ := h3 1 15 0 (by omega) (by omega) (by omega)
  refine ⟨?_, ?_, ?_, ?_⟩
  · simpa using a1
  · simpa using a2
  · simpa using b1
  · simpa using b2

/- ## Helper lemmas: the metadata chapter loop -/

lemma lastEndNone_concat (acc : List ChapterData) (c : ChapterData) :
    lastEndNone (acc ++ [c]) = c.end_time.isNone := by
  unfold lastEndNone
  rw [List.getLast?_concat]

lemma setLastEnd_concat :
    ∀ (acc : List ChapterData) (c : ChapterData) (v : Int),
      setLastEnd (acc ++ [c]) v = acc ++ [{ c with end_time := some v }]
  | [], _, _ => rfl
  | [_], _, _ => rfl
  | a :: b :: acc, c, v => by
    show a :: setLastEnd ((b :: acc) ++ [c]) v = _
    rw [setLastEnd_concat (b :: acc) c v]
    rfl

lemma metaLoop_cons_eq (i : Nat) (r : MetaRec) (rs : List MetaRec) (acc : List ChapterData) :
    metaLoop i (r :: rs) acc =
      metaLoop (i + 1) rs
        ((if decide (i > 0) && lastEndNone acc then setLastEnd acc (r.start_time.getD 0)
          else acc) ++ [mkChapter r i]) := rfl

lemma metaChain_cons_eq (rs : List MetaRec) (r : MetaRec) (c : ChapterData) (i : Nat) :
    metaChain c i (r :: rs) =
      (if c.end_time = none then { c with end_time := some (r.start_time.getD 0) } else c)
        :: metaChain (mkChapter r i) (i + 1) rs := rfl

lemma metaLoop_concat :
    ∀ (rs : List MetaRec) (i : Nat) (acc : List ChapterData) (c : ChapterData), 1 ≤ i →
      metaLoop i rs (acc ++ [c]) = acc ++ metaChain c i rs := by
  intro rs
  induction rs with
  | nil =>
    intro i acc c _
    simp [metaLoop, metaChain]
  | cons r rs ih =>
    intro i acc c hi
    rw [metaLoop_cons_eq, metaChain_cons_eq]
    have hd : decide (i > 0) = true := decide_eq_true (by omega)
    rw [hd, Bool.true_and, lastEndNone_concat]
    by_cases hce : c.end_time = none
    · rw [if_pos (by simp [hce]), if_pos hce, setLastEnd_concat]
      rw [ih (i + 1) _ _ (by omega)]
      simp
    · rw [if_neg (by simp [hce]), if_neg hce]
      rw [ih (i + 1) _ _ (by omega)]
      simp

lemma extract_meta_nil : _extract_chapters_from_metadata [] = [] := rfl

lemma extract_meta_cons (r : MetaRec) (rs : List MetaRec) :
    _extract_chapters_from_metadata (r :: rs) = metaChain (mkChapter r 0) 1 rs := by
  unfold _extract_chapters_from_metadata
  rw [metaLoop_cons_eq]
  rw [show (decide (0 > 0) && lastEndNone []) = false from rfl]
  rw [if_neg (by simp)]
  simpa using metaLoop_concat rs 1 [] (mkChapter r 0) (by omega)

lemma mkChapter_start (r : MetaRec) (i : Nat) :
    (mkChapter r i).start_time = r.start_time.getD 0 := rfl

lemma mkChapter_title (r : MetaRec) (i : Nat) :
    (mkChapter r i).title = r.title.getD (chapterName (i + 1)) := rfl

lemma mkChapter_end_none {r : MetaRec} (h : endTruthy r = false) (i : Nat) :
    (mkChapter r i).end_time = none := by
  unfold mkChapter
  unfold endTruthy at h
  rcases he : r.end_time with _ | e
  · simp [he]
  · rw [he] at h
    simp at h
    simp [he, h]

lemma mkChapter_end_truthy {r : MetaRec} {e : Int} (h : r.end_time = some e) (he : e ≠ 0)
    (i : Nat) : (mkChapter r i).end_time = some e := by
  unfold mkChapter
  simp [h, he]

lemma metaChain_head_start :
    ∀ (rs : List MetaRec) (c : ChapterData) (i : Nat),
      ∃ hd tl, metaChain c i rs = hd :: tl ∧ hd.start_time = c.start_time := by
  intro rs c i
  cases rs with
  | nil => exact ⟨c, [], rfl, rfl⟩
  | cons r rs =>
    rw [metaChain_cons_eq]
    by_cases hce : c.end_time = none
    · rw [if_pos hce]
      exact ⟨_, _, rfl, rfl⟩
    · rw [if_neg hce]
      exact ⟨_, _, rfl, rfl⟩

lemma metaChain_map_start :
    ∀ (rs : List MetaRec) (c : ChapterData) (i : Nat),
      (metaChain c i rs).map (fun ch => ch.start_time) =
        c.start_time :: rs.map (fun r => r.start_time.getD 0) := by
  intro rs
  induction rs with
  | nil => intro c i; rfl
  | cons r rs ih =>
    intro c i
    rw [metaChain_cons_eq]
    by_cases hce : c.end_time = none <;>
      simp [hce, ih, mkChapter_start]

lemma metaChain_titles :
    ∀ (rs : List MetaRec) (c : ChapterData) (i : Nat),
      (metaChain c i rs).map (fun ch => ch.title) = c.title :: titlesFrom (i + 1) rs := by
  intro rs
  induction rs with
  | nil => intro c i; rfl
  | cons r rs ih =>
    intro c i
    rw [metaChain_cons_eq]
    unfold titlesFrom
    by_cases hce : c.end_time = none <;>
      simp [hce, ih, mkChapter_title]

lemma metaChain_ends_isSome :
    ∀ (rs : List MetaRec) (c : ChapterData) (i : Nat),
      List.Chain' (fun a _ => a.end_time.isSome = true) (metaChain c i rs) := by
  intro rs
  induction rs with
  | nil => intro c i; simp [metaChain]
  | cons r rs ih =>
    intro c i
    rw [metaChain_cons_eq, List.chain'_cons']
    refine ⟨fun b _ => ?_, ih _ _⟩
    by_cases hce : c.end_time = none
    · simp [hce]
    · rw [if_neg hce]
      simpa [Option.isSome_iff_ne_none] using hce

lemma metaChain_backfill :
    ∀ (rs : List MetaRec) (c : ChapterData) (i : Nat), c.end_time = none →
      (∀ r ∈ rs, endTruthy r = false) →
      List.Chain' (fun a b => a.end_time = some b.start_time) (metaChain c i rs) := by
  intro rs
  induction rs with
  | nil => intro c i _ _; simp [metaChain]
  | cons r rs ih =>
    intro c i hce hall
    rw [metaChain_cons_eq, if_pos hce, List.chain'_cons']
    constructor
    · intro b hb
      obtain ⟨hd, tl, heq, hst⟩ := metaChain_head_start rs (mkChapter r i) (i + 1)
      rw [heq] at hb
      simp at hb
      subst hb
      simp [hst, mkChapter_start]
    · exact ih (mkChapter r i) (i + 1)
        (mkChapter_end_none (hall r (List.mem_cons_self _ _)) i)
        (fun x hx => hall x (List.mem_cons_of_mem _ hx))

lemma metaChain_zip_backfill :
    ∀ (rs : List MetaRec) (r0 : MetaRec) (i j : Nat),
      List.Chain' (fun p q => endTruthy p.1 = false → p.2.end_time = some q.2.start_time)
        ((r0 :: rs).zip (metaChain (mkChapter r0 j) i rs)) := by
  intro rs
  induction rs with
  | nil => intro r0 i j; simp [metaChain]
  | cons r rs ih =>
    intro r0 i j
    rw [metaChain_cons_eq]
    obtain ⟨hd, tl, heq, hst⟩ := metaChain_head_start rs (mkChapter r i) (i + 1)
    rw [heq, List.zip_cons_cons, List.zip_cons_cons, List.chain'_cons]
    constructor
    · intro ht
      rw [mkChapter_end_none ht j]
      simp
      rw [hst, mkChapter_start]
    · rw [← List.zip_cons_cons, ← heq]
      exact ih r (i + 1) i

lemma metaChain_getLast :
    ∀ (rs : List MetaRec) (c : ChapterData) (i : Nat),
      (rs = [] ∧ (metaChain c i rs).getLast? = some c) ∨
        (∃ r j, rs.getLast? = some r ∧ (metaChain c i rs).getLast? = some (mkChapter r j)) := by
  intro rs
  induction rs with
  | nil => intro c i; exact Or.inl ⟨rfl, rfl⟩
  | cons r rs ih =>
    intro c i
    refine Or.inr ?_
    obtain ⟨hd, tl, heq, _⟩ := metaChain_head_start rs (mkChapter r i) (i + 1)
    have hlast2 : (metaChain c i (r :: rs)).getLast? =
        (metaChain (mkChapter r i) (i + 1) rs).getLast? := by
      rw [metaChain_cons_eq, heq, List.getLast?_cons_cons, ← heq]
    rcases ih (mkChapter r i) (i + 1) with ⟨hnil, hl⟩ | ⟨r2, j, hr2, hl⟩
    · subst hnil
      exact ⟨r, i, rfl, by rw [hlast2, hl]⟩
    · refine ⟨r2, j, ?_, by rw [hlast2, hl]⟩
      cases rs with
      | nil => simp at hr2
      | cons b bs => rw [List.getLast?_cons_cons]; exact hr2

/- ## C4: metadata chapter backfill -/

/-- C4: in the metadata strategy, every chapter whose record lacks a (truthy)
    end_time has its end backfilled with the following chapter's start time;
    the final chapter may keep a null end; an absent title defaults to
    Chapter N with 1-based N; and the concrete example of records A at 0,
    B at 30 and C at 90 with end 120 yields the ends 30, 90, 120. -/
theorem c4_metadata_backfill :
    (∀ recs : List MetaRec,
      List.Chain' (fun p q => endTruthy p.1 = false → p.2.end_time = some q.2.start_time)
        (recs.zip (_extract_chapters_from_metadata recs))) ∧
    (∀ recs : List MetaRec, ∀ r : MetaRec, recs.getLast? = some r → endTruthy r = false →
      ∃ c : ChapterData, (_extract_chapters_from_metadata recs).getLast? = some c ∧
        c.end_time = none) ∧
    (∀ recs : List MetaRec,
      (_extract_chapters_from_metadata recs).map (fun c => c.title) = titlesFrom 1 recs) ∧
    (_extract_chapters_from_metadata
        [⟨some (("A").toList), some 0, none⟩, ⟨some (("B").toList), some 30, none⟩,
         ⟨some (("C").toList), some 90, some 120⟩]).map (fun c => c.end_time) =
      [some 30, some 90, some 120] := by
  refine ⟨?_, ?_, ?_, by decide⟩
  · intro recs
    cases recs with
    | nil => simp [extract_meta_nil]
    | cons r rs =>
      rw [extract_meta_cons]
      exact metaChain_zip_backfill rs r 1 0
  · intro recs r hlast htruthy
    cases recs with
    | nil => simp at hlast
    | cons r0 rs =>
      rw [extract_meta_cons]
      rcases metaChain_getLast rs (mkChapter r0 0) 1 with ⟨hnil, hl⟩ | ⟨r2, j, hr2, hl⟩
      · subst hnil
        have h0 : endTruthy r0 = false := by
          simp at hlast
          rw [hlast]
          exact htruthy
        exact ⟨mkChapter r0 0, hl, mkChapter_end_none h0 0⟩
      · have hr2r : r2 = r := by
          cases rs with
          | nil => simp at hr2
          | cons b bs =>
            rw [List.getLast?_cons_cons, hr2] at hlast
            exact Option.some_inj.mp hlast
        subst hr2r
        exact ⟨mkChapter r2 j, hl, mkChapter_end_none htruthy j⟩
  · intro recs
    cases recs with
    | nil => simp [extract_meta_nil, titlesFrom]
    | cons r rs =>
      rw [extract_meta_cons, metaChain_titles]
      simp [titlesFrom, mkChapter_title]

/-- Witness for C4 at a concrete record list, discharging the hypotheses of
    its final-chapter conjunct. -/
theorem c4_metadata_backfill_witness :
    ∃ c : ChapterData,
      (_extract_chapters_from_metadata
        [⟨some (("A").toList), some 0, none⟩]).getLast? = some c ∧ c.end_time = none :=
  c4_metadata_backfill.2.1 [⟨some (("A").toList), some 0, none⟩]
    ⟨some (("A").toList), some 0, none⟩ (by decide) (by decide)

/- ## C10: a zero end_time is treated as absent -/

lemma mkChapter_end_zero {r : MetaRec} (h : r.end_time = some 0) (i : Nat) :
    mkChapter r i = mkChapter { r with end_time := none } i := by
  unfold mkChapter
  simp [h]

lemma metaLoop_end_zero {r : MetaRec} (h : r.end_time = some 0) (post : List MetaRec) :
    ∀ (pre : List MetaRec) (i : Nat) (acc : List ChapterData),
      metaLoop i (pre ++ r :: post) acc =
        metaLoop i (pre ++ { r with end_time := none } :: post) acc := by
  intro pre
  induction pre with
  | nil =>
    intro i acc
    simp only [List.nil_append]
    rw [metaLoop_cons_eq, metaLoop_cons_eq, ← mkChapter_end_zero h]
  | cons p pre ih =>
    intro i acc
    simp only [List.cons_append]
    rw [metaLoop_cons_eq, metaLoop_cons_eq, ih]

/-- C10: a provider chapter record whose end_time is present but equal to 0
    is treated exactly as if end_time were absent: the produced chapters are
    identical, so the null end is backfilled from the next chapter when one
    exists (concrete: A with end 0 before B at 30 gets end 30) and stays
    null on a final chapter (concrete: lone A with end 0). -/
theorem c10_zero_end_is_absent :
    (∀ (pre post : List MetaRec) (r : MetaRec), r.end_time = some 0 →
      _extract_chapters_from_metadata (pre ++ r :: post) =
        _extract_chapters_from_metadata (pre ++ { r with end_time := none } :: post)) ∧
    (_extract_chapters_from_metadata
        [⟨some (("A").toList), some 0, some 0⟩,
         ⟨some (("B").toList), some 30, none⟩]).map (fun c => c.end_time) =
      [some 30, none] ∧
    (_extract_chapters_from_metadata [⟨some (("A").toList), some 0, some 0⟩]).map
        (fun c => c.end_time) = [none] := by
  refine ⟨?_, by decide, by decide⟩
  intro pre post r h
  unfold _extract_chapters_from_metadata
  exact metaLoop_end_zero h post pre 0 []

/-- Witness for C10 at a concrete record list. -/
theorem c10_zero_end_is_absent_witness :
    _extract_chapters_from_metadata
        ([] ++ (⟨some (("A").toList), some 0, some 0⟩ : MetaRec) ::
          [⟨some (("B").toList), some 30, none⟩]) =
      _extract_chapters_from_metadata
        ([] ++ (⟨some (("A").toList), some 0, none⟩ : MetaRec) ::
          [⟨some (("B").toList), some 30, none⟩]) :=
  c10_zero_end_is_absent.1 [] [⟨some (("B").toList), some 30, none⟩]
    ⟨some (("A").toList), some 0, some 0⟩ rfl

/- ## Helper lemmas: the description chapter loop -/

lemma backfillLast_concat (acc : List ChapterData) (c : ChapterData) (v : Int) :
    backfillLast (acc ++ [c]) v =
      acc ++ [if c.end_time = none then { c with end_time := some v } else c] := by
  unfold backfillLast
  rw [lastEndNone_concat]
  by_cases hce : c.end_time = none
  · rw [if_pos (by simp [hce]), setLastEnd_concat, if_pos hce]
  · rw [if_neg (by simp [hce]), if_neg hce]

lemma buildLoop_cons_eq (ts title : List Char) (ms : List (List Char × List Char))
    (acc : List ChapterData) :
    buildLoop ((ts, title) :: ms) acc =
      match _parse_timestamp (pyStrip ts) with
      | some s =>
        if (cleanTitle title).isEmpty then buildLoop ms acc
        else buildLoop ms (backfillLast acc s ++ [⟨cleanTitle title, s, none, ts⟩])
      | none => buildLoop ms acc := rfl

lemma buildChain_cons_eq (ts title : List Char) (ms : List (List Char × List Char))
    (c : ChapterData) :
    buildChain c ((ts, title) :: ms) =
      match _parse_timestamp (pyStrip ts) with
      | some s =>
        if (cleanTitle title).isEmpty then buildChain c ms
        else
          (if c.end_time = none then { c with end_time := some s } else c) ::
            buildChain ⟨cleanTitle title, s, none, ts⟩ ms
      | none => buildChain c ms := rfl

lemma buildLoop_concat :
    ∀ (ms : List (List Char × List Char)) (acc : List ChapterData) (c : ChapterData),
      buildLoop ms (acc ++ [c]) = acc ++ buildChain c ms := by
  intro ms
  induction ms with
  | nil => intro acc c; rfl
  | cons m ms ih =>
    intro acc c
    obtain ⟨ts, title⟩ := m
    rw [buildLoop_cons_eq, buildChain_cons_eq]
    cases hp : _parse_timestamp (pyStrip ts) with
    | none => exact ih acc c
    | some s =>
      by_cases ht : (cleanTitle title).isEmpty
      · simpa [ht] using ih acc c
      · have h2 := ih
          (acc ++ [if c.end_time = none then { c with end_time := some s } else c])
          ⟨cleanTitle title, s, none, ts⟩
        simp [ht, backfillLast_concat]
        simpa [List.append_assoc] using h2

lemma usableStarts_cons (ts title : List Char) (ms : List (List Char × List Char)) :
    usableStarts ((ts, title) :: ms) =
      match _parse_timestamp (pyStrip ts) with
      | some s =>
        if (cleanTitle title).isEmpty then usableStarts ms else s :: usableStarts ms
      | none => usableStarts ms := by
  unfold usableStarts
  rw [List.filterMap_cons]
  cases hp : _parse_timestamp (pyStrip ts) with
  | none => simp
  | some s =>
    by_cases ht : (cleanTitle title).isEmpty <;> simp [ht]

lemma buildChain_head_start :
    ∀ (ms : List (List Char × List Char)) (c : ChapterData),
      ∃ hd tl, buildChain c ms = hd :: tl ∧ hd.start_time = c.start_time := by
  intro ms
  induction ms with
  | nil => intro c; exact ⟨c, [], rfl, rfl⟩
  | cons m ms ih =>
    intro c
    obtain ⟨ts, title⟩ := m
    rw [buildChain_cons_eq]
    cases hp : _parse_timestamp (pyStrip ts) with
    | none => exact ih c
    | some s =>
      by_cases ht : (cleanTitle title).isEmpty
      · simpa [ht] using ih c
      · by_cases hce : c.end_time = none
        · refine ⟨{ c with end_time := some s },
            buildChain ⟨cleanTitle title, s, none, ts⟩ ms, ?_, rfl⟩
          simp [ht, hce]
        · refine ⟨c, buildChain ⟨cleanTitle title, s, none, ts⟩ ms, ?_, rfl⟩
          simp [ht, hce]

lemma buildChain_map_start :
    ∀ (ms : List (List Char × List Char)) (c : ChapterData),
      (buildChain c ms).map (fun ch => ch.start_time) = c.start_time :: usableStarts ms := by
  intro ms
  induction ms with
  | nil => intro c; simp [buildChain, usableStarts]
  | cons m ms ih =>
    intro c
    obtain ⟨ts, title⟩ := m
    rw [buildChain_cons_eq, usableStarts_cons]
    cases hp : _parse_timestamp (pyStrip ts) with
    | none => exact ih c
    | some s =>
      by_cases ht : (cleanTitle title).isEmpty
      · simpa [ht] using ih c
      · by_cases hce : c.end_time = none <;> simp [ht, hce, ih]

lemma buildChain_chain :
    ∀ (ms : List (List Char × List Char)) (c : ChapterData), c.end_time = none →
      List.Chain' (fun a b => a.end_time = some b.start_time) (buildChain c ms) := by
  intro ms
  induction ms with
  | nil => intro c _; simp [buildChain]
  | cons m ms ih =>
    intro c hce
    obtain ⟨ts, title⟩ := m
    rw [buildChain_cons_eq]
    cases hp : _parse_timestamp (pyStrip ts) with
    | none => exact ih c hce
    | some s =>
      by_cases ht : (cleanTitle title).isEmpty
      · simpa [ht] using ih c hce
      · have hred :
            (match some s with
              | some s =>
                if (cleanTitle title).isEmpty = true then buildChain c ms
                else
                  (if c.end_time = none then { c with end_time := some s } else c) ::
                    buildChain ⟨cleanTitle title, s, none, ts⟩ ms
              | none => buildChain c ms) =
              (({ c with end_time := some s } : ChapterData) ::
                buildChain ⟨cleanTitle title, s, none, ts⟩ ms) := by
          simp [ht, hce]
        rw [hred, List.chain'_cons']
        constructor
        · intro b hb
          obtain ⟨hd, tl, heq, hst⟩ := buildChain_head_start ms ⟨cleanTitle title, s, none, ts⟩
          rw [heq] at hb
          simp at hb
          subst hb
          simp [hst]
        · exact ih _ rfl

lemma buildLoop_nil_spec :
    ∀ ms : List (List Char × List Char),
      (buildLoop ms []).map (fun ch => ch.start_time) = usableStarts ms ∧
        List.Chain' (fun a b => a.end_time = some b.start_time) (buildLoop ms []) := by
  intro ms
  induction ms with
  | nil => simp [buildLoop, usableStarts]
  | cons m ms ih =>
    obtain ⟨ts, title⟩ := m
    rw [buildLoop_cons_eq, usableStarts_cons]
    cases hp : _parse_timestamp (pyStrip ts) with
    | none => exact ih
    | some s =>
      by_cases ht : (cleanTitle title).isEmpty
      · simpa [ht] using ih
      · have hb : backfillLast [] s ++ [(⟨cleanTitle title, s, none, ts⟩ : ChapterData)] =
            [] ++ [(⟨cleanTitle title, s, none, ts⟩ : ChapterData)] := rfl
        simp only [ht]
        rw [if_neg (by simp [ht]), if_neg (by simp [ht]), hb, buildLoop_concat,
          List.nil_append]
        constructor
        · rw [buildChain_map_start]
        · exact buildChain_chain ms _ rfl

lemma patLoop_cons_eq (text : List Char) (k : Nat) (ks : List Nat)
    (chapters : List ChapterData) :
    patLoop text (k :: ks) chapters =
      if (findallChapters k text).isEmpty then patLoop text ks chapters
      else if (buildLoop (findallChapters k text) chapters).isEmpty then
        patLoop text ks (buildLoop (findallChapters k text) chapters)
      else buildLoop (findallChapters k text) chapters := rfl

lemma patLoop_chain (text : List Char) :
    ∀ ks : List Nat,
      List.Chain' (fun a b => a.end_time = some b.start_time) (patLoop text ks []) := by
  intro ks
  induction ks with
  | nil => simp [patLoop]
  | cons k ks ih =>
    rw [patLoop_cons_eq]
    by_cases hms : (findallChapters k text).isEmpty
    · rw [if_pos hms]
      exact ih
    · rw [if_neg hms]
      by_cases hb : (buildLoop (findallChapters k text) []).isEmpty
      · rw [if_pos hb, List.isEmpty_iff.mp hb]
        exact ih
      · rw [if_neg hb]
        exact (buildLoop_nil_spec (findallChapters k text)).2

lemma patLoop_eq_first (text : List Char) :
    ∀ ks : List Nat,
      patLoop text ks [] =
        ((ks.map (fun k => patternChapters k text)).find? (fun c => !c.isEmpty)).getD [] := by
  intro ks
  induction ks with
  | nil => rfl
  | cons k ks ih =>
    rw [patLoop_cons_eq, List.map_cons, List.find?_cons]
    by_cases hms : (findallChapters k text).isEmpty
    · have hpc : patternChapters k text = [] := by
        unfold patternChapters
        rw [List.isEmpty_iff.mp hms]
        rfl
      rw [if_pos hms, hpc]
      simpa using ih
    · rw [if_neg hms]
      by_cases hb : (buildLoop (findallChapters k text) []).isEmpty
      · have hpc : patternChapters k text = [] := by
          unfold patternChapters
          exact List.isEmpty_iff.mp hb
        rw [if_pos hb, List.isEmpty_iff.mp hb, hpc]
        simpa using ih
      · have hpc : patternChapters k text = buildLoop (findallChapters k text) [] := rfl
        rw [if_neg hb, hpc]
        have hne : (buildLoop (findallChapters k text) []).isEmpty = false := by
          simpa using hb
        simp [hne]

/- ## C5: first pattern with usable chapters -/

/-- C5 as stated fails on the code: on the text 0:00 dash tab, the first
    pattern does yield a match, but its only match is skipped (the cleaned
    title is empty), so the result comes from the second pattern instead of
    being the empty list of the first matching pattern. -/
theorem c5_counterexample :
    findallChapters 1 (("0:00 -\t").toList) ≠ [] ∧
    buildLoop (findallChapters 1 (("0:00 -\t").toList)) [] = [] ∧
    _parse_chapters_from_text (("0:00 -\t").toList) =
      [⟨['-'], 0, none, ("0:00").toList⟩] := by decide

/-- C5 amended: the description strategy uses the first pattern that yields
    any usable chapter — a match whose timestamp parses and whose cleaned
    title is nonempty; a pattern all of whose matches are skipped is passed
    over in favor of later patterns; results never merge across patterns;
    per match, the timestamp is parsed, the title cleaned, and failures
    skipped silently; the concrete two-line example parses to Intro at 0
    with end 90 and Setup at 90 with null end. -/
theorem c5_first_usable_pattern :
    (∀ text : List Char, _parse_chapters_from_text text = firstUsableChapters text) ∧
    _parse_chapters_from_text (("0:00 - Intro\n1:30 - Setup").toList) =
      [⟨("Intro").toList, 0, some 90, ("0:00").toList⟩,
       ⟨("Setup").toList, 90, none, ("1:30").toList⟩] := by
  refine ⟨?_, by decide⟩
  intro text
  unfold _parse_chapters_from_text firstUsableChapters
  exact patLoop_eq_first text [1, 2, 3]

/- ## C6: chapter-list invariants -/

/-- C6 as stated fails on the code: the description text with 5:00 before
    0:30 yields chapters whose start times 300, 30 are not in non-decreasing
    order. -/
theorem c6_counterexample :
    (_parse_chapters_from_text (("5:00 - B\n0:30 - A").toList)).map
        (fun c => c.start_time) = [300, 30] ∧
    ¬ List.Chain' (fun a b : Int => a ≤ b)
        ((_parse_chapters_from_text (("5:00 - B\n0:30 - A").toList)).map
          (fun c => c.start_time)) := by
  have h : (_parse_chapters_from_text (("5:00 - B\n0:30 - A").toList)).map
      (fun c => c.start_time) = [300, 30] := by decide
  refine ⟨h, ?_⟩
  rw [h]
  simp [List.chain'_cons]

/-- C6 amended: chapter lists preserve their source order rather than being
    sorted: description chapters appear in match order (their start times
    are exactly the parsed starts of the usable matches, in order) and every
    non-last description chapter's end equals the next chapter's start with
    only the last end null; metadata chapters keep the record order (their
    start times are the records' start times), every non-last metadata
    chapter has a non-null end, and when no record carries a truthy end_time
    every non-last end equals the next start. -/
theorem c6_amended_invariants :
    (∀ text : List Char,
      List.Chain' (fun a b => a.end_time = some b.start_time)
        (_parse_chapters_from_text text)) ∧
    (∀ (k : Nat) (text : List Char),
      (patternChapters k text).map (fun c => c.start_time) =
        usableStarts (findallChapters k text)) ∧
    (∀ recs : List MetaRec,
      (_extract_chapters_from_metadata recs).map (fun c => c.start_time) =
        recs.map (fun r => r.start_time.getD 0)) ∧
    (∀ recs : List MetaRec,
      List.Chain' (fun a _ => a.end_time.isSome = true)
        (_extract_chapters_from_metadata recs)) ∧
    (∀ recs : List MetaRec, (∀ r ∈ recs, endTruthy r = false) →
      List.Chain' (fun a b => a.end_time = some b.start_time)
        (_extract_chapters_from_metadata recs)) := by
  refine ⟨?_, ?_, ?_, ?_, ?_⟩
  · intro text
    unfold _parse_chapters_from_text
    exact patLoop_chain text [1, 2, 3]
  · intro k text
    unfold patternChapters
    exact (buildLoop_nil_spec (findallChapters k text)).1
  · intro recs
    cases recs with
    | nil => simp [extract_meta_nil]
    | cons r rs =>
      rw [extract_meta_cons, metaChain_map_start]
      simp [mkChapter_start]
  · intro recs
    cases recs with
    | nil => simp [extract_meta_nil]
    | cons r rs =>
      rw [extract_meta_cons]
      exact metaChain_ends_isSome rs _ 1
  · intro recs hall
    cases recs with
    | nil => simp [extract_meta_nil]
    | cons r rs =>
      rw [extract_meta_cons]
      exact metaChain_backfill rs _ 1
        (mkChapter_end_none (hall r (List.mem_cons_self _ _)) 0)
        (fun x hx => hall x (List.mem_cons_of_mem _ hx))

/-- Witness for the amended C6, discharging the no-truthy-ends hypothesis at
    a concrete record list. -/
theorem c6_amended_invariants_witness :
    List.Chain' (fun a b => a.end_time = some b.start_time)
      (_extract_chapters_from_metadata
        [⟨some (("A").toList), some 0, none⟩, ⟨some (("B").toList), some 30, none⟩]) :=
  c6_amended_invariants.2.2.2.2
    [⟨some (("A").toList), some 0, none⟩, ⟨some (("B").toList), some 30, none⟩]
    (by decide)

/- ## C3: reflow paragraph shape -/

lemma pyUpperChar_not_lower (c : Char) : isLowerC (pyUpperChar c) = false := by
  unfold pyUpperChar isLowerC
  by_cases h : ('a' ≤ c && c ≤ 'z') = true
  · rw [if_pos h]
    simp only [Bool.and_eq_true, decide_eq_true_eq] at h
    have h1 : (97 : Nat) ≤ c.toNat := h.1
    have h2 : c.toNat ≤ 122 := h.2
    have ht : (Char.ofNat (c.toNat - 32)).toNat = c.toNat - 32 :=
      char_toNat_ofNat (by omega)
    have hx : ¬ ('a' ≤ Char.ofNat (c.toNat - 32)) := by
      rw [char_le_iff, ht]
      show ¬ (97 ≤ c.toNat - 32)
      omega
    simp [hx]
  · rw [if_neg h]
    simpa using h

lemma postParagraph_props {para p : List Char} (h : postParagraph para = some p) :
    (∃ c cs, p = c :: cs ∧ isLowerC c = false) ∧
      (∃ q, p.getLast? = some q ∧ isPunct q = true) := by
  unfold postParagraph at h
  rcases hs : pyStrip para with _ | ⟨c, rest⟩ <;> rw [hs] at h
  · exact absurd h (by simp)
  · simp only [Option.some_inj] at h
    by_cases hp : isPunct ((pyUpperChar c :: rest).getLast (List.cons_ne_nil _ _)) = true
    · rw [if_pos hp] at h
      subst h
      refine ⟨⟨_, _, rfl, pyUpperChar_not_lower c⟩, ⟨_, ?_, hp⟩⟩
      exact List.getLast?_eq_getLast _ _
    · rw [if_neg hp] at h
      subst h
      refine ⟨⟨pyUpperChar c, rest ++ ['.'], by simp, pyUpperChar_not_lower c⟩, ⟨'.', ?_, by decide⟩⟩
      rw [show (pyUpperChar c :: rest) ++ ['.'] = pyUpperChar c :: (rest ++ ['.']) from rfl,
        ← List.cons_append, List.getLast?_concat]

/-- C3 as stated fails on the code: the fragment text 5 dogs produces the
    single paragraph 5 dogs. whose first character is the digit 5, not an
    uppercase letter (upper() leaves non-letters untouched). -/
theorem c3_counterexample :
    formattedParagraphs [Segment.text (("5 dogs").toList)] = [("5 dogs.").toList] ∧
    format_transcript [Segment.text (("5 dogs").toList)] = ("5 dogs.").toList ∧
    isUpperC '5' = false ∧ ('5').isAlpha = false := by decide

/-- C3 amended: the empty fragment sequence yields the empty string; every
    produced paragraph is nonempty, ends in terminal punctuation, and starts
    with a character that is not a lowercase letter (the first character is
    uppercased, a non-letter first character stays as it is); the engine is
    a total function and a missing text field is treated exactly as an
    empty text field. -/
theorem c3_paragraph_shape :
    format_transcript [] = [] ∧
    (∀ (segs : List Segment) (p : List Char), p ∈ formattedParagraphs segs →
      (∃ c cs, p = c :: cs ∧ isLowerC c = false) ∧
        (∃ q, p.getLast? = some q ∧ isPunct q = true)) ∧
    (∀ rest : List Segment,
      format_transcript (Segment.noText :: rest) =
        format_transcript (Segment.text [] :: rest)) := by
  refine ⟨rfl, ?_, fun rest => rfl⟩
  intro segs p hp
  unfold formattedParagraphs at hp
  rw [List.mem_filterMap] at hp
  obtain ⟨para, _, hpost⟩ := hp
  exact postParagraph_props hpost

/-- Witness for the amended C3, discharging the paragraph-membership
    hypothesis at a concrete fragment list. -/
theorem c3_paragraph_shape_witness :
    (∃ c cs, ("5 dogs.").toList = c :: cs ∧ isLowerC c = false) ∧
      (∃ q, (("5 dogs.").toList).getLast? = some q ∧ isPunct q = true) :=
  c3_paragraph_shape.2.1 [Segment.text (("5 dogs").toList)] (("5 dogs.").toList)
    (by decide)

/- ## C9: degenerate-sentence word re-segmentation -/

lemma segGo_cons_eq (w : List Char) (rest cur : List (List Char)) :
    segGo (w :: rest) cur =
      if (cur ++ [w]).length ≥ 15 then
        if nextUpper rest then List.intercalate [' '] (cur ++ [w]) :: segGo rest []
        else if (cur ++ [w]).length ≥ 20 then
          List.intercalate [' '] (cur ++ [w]) :: segGo rest []
        else segGo rest (cur ++ [w])
      else segGo rest (cur ++ [w]) := rfl

lemma firstClose_cons_eq (c : Nat) (w : List Char) (rest : List (List Char)) :
    firstClose c (w :: rest) =
      if (15 ≤ c + 1 ∧ nextUpper rest = true) ∨ 20 ≤ c + 1 then some 1
      else (firstClose (c + 1) rest).map (fun j => j + 1) := rfl

lemma firstClose_bounds :
    ∀ (ws : List (List Char)) (c j : Nat), firstClose c ws = some j →
      1 ≤ j ∧ j ≤ ws.length := by
  intro ws
  induction ws with
  | nil => intro c j h; exact absurd h (by simp [firstClose])
  | cons w rest ih =>
    intro c j h
    rw [firstClose_cons_eq] at h
    by_cases hc : (15 ≤ c + 1 ∧ nextUpper rest = true) ∨ 20 ≤ c + 1
    · rw [if_pos hc] at h
      simp only [Option.some_inj] at h
      subst h
      simp only [List.length_cons]
      omega
    · rw [if_neg hc] at h
      rcases ho : firstClose (c + 1) rest with _ | j2 <;> rw [ho] at h
      · simp at h
      · simp at h
        obtain ⟨h1, h2⟩ := ih (c + 1) j2 ho
        subst h
        simp only [List.length_cons]
        omega

lemma segGo_spec :
    ∀ (ws cur : List (List Char)),
      segGo ws cur =
        match firstClose cur.length ws with
        | some j => List.intercalate [' '] (cur ++ ws.take j) :: segGo (ws.drop j) []
        | none =>
          if (cur ++ ws).isEmpty then [] else [List.intercalate [' '] (cur ++ ws)] := by
  intro ws
  induction ws with
  | nil =>
    intro cur
    simp [segGo, firstClose]
  | cons w rest ih =>
    intro cur
    rw [segGo_cons_eq, firstClose_cons_eq]
    have hlen : (cur ++ [w]).length = cur.length + 1 := by simp
    by_cases h15 : 15 ≤ cur.length + 1
    · by_cases hup : nextUpper rest = true
      · rw [if_pos (by omega : (cur ++ [w]).length ≥ 15), if_pos hup,
          if_pos (Or.inl ⟨h15, hup⟩)]
        simp
      · by_cases h20 : 20 ≤ cur.length + 1
        · rw [if_pos (by omega : (cur ++ [w]).length ≥ 15), if_neg hup,
            if_pos (by omega : (cur ++ [w]).length ≥ 20), if_pos (Or.inr h20)]
          simp
        · rw [if_pos (by omega : (cur ++ [w]).length ≥ 15), if_neg hup,
            if_neg (by omega : ¬ (cur ++ [w]).length ≥ 20),
            if_neg (by rw [not_or, not_and]; exact ⟨fun _ => hup, by omega⟩)]
          rw [ih (cur ++ [w]), hlen]
          cases ho : firstClose (cur.length + 1) rest with
          | some j2 => simp [List.append_assoc]
          | none => simp [List.append_assoc]
    · rw [if_neg (by omega : ¬ (cur ++ [w]).length ≥ 15),
        if_neg (by rw [not_or, not_and]; exact ⟨fun hh => absurd hh (by omega), by omega⟩)]
      rw [ih (cur ++ [w]), hlen]
      cases ho : firstClose (cur.length + 1) rest with
      | some j2 => simp [List.append_assoc]
      | none => simp [List.append_assoc]

lemma segGo_eq_specSegAux :
    ∀ (fuel : Nat) (ws : List (List Char)), ws.length < fuel →
      specSegAux fuel ws = segGo ws [] := by
  intro fuel
  induction fuel with
  | zero => intro ws h; omega
  | succ f ih =>
    intro ws h
    rw [segGo_spec ws []]
    unfold specSegAux
    simp only [List.length_nil, List.nil_append]
    cases hf : firstClose 0 ws with
    | none => rfl
    | some j =>
      obtain ⟨hj1, hj2⟩ := firstClose_bounds ws 0 j hf
      show List.intercalate [' '] (ws.take j) :: specSegAux f (ws.drop j) =
        List.intercalate [' '] (ws.take j) :: segGo (ws.drop j) []
      rw [ih (ws.drop j) (by simp [List.length_drop]; omega)]

lemma specResegment_eq_segGo (ws : List (List Char)) : specResegment ws = segGo ws [] :=
  segGo_eq_specSegAux (ws.length + 1) ws (by omega)

/-- C9: whenever punctuation splitting leaves at most three sentences while
    the concatenated text exceeds 200 characters, format_transcript
    re-segments the words exactly by the specified rule: the candidate
    sentence closes at the first point where it has reached 15 words with
    the following word starting uppercase, or 20 words regardless,
    whichever triggers first, and trailing words form a final sentence. -/
theorem c9_degenerate_resegmentation (segs : List Segment)
    (h1 : (splitSentences (fullTextOf segs)).length ≤ 3)
    (h2 : 200 < (fullTextOf segs).length) :
    sentencesOf segs = specResegment (pyWords (fullTextOf segs)) := by
  simp only [sentencesOf]
  rw [if_pos (by simp [h1, h2]), specResegment_eq_segGo]

/- ## C1: invalid URL at the web endpoint -/

/-- C1 evaluated at the failing input: for the unresolvable URL random text
    the endpoint issues no transcript-provider or metadata-provider call,
    but it responds with HTTP status 500, not 400 — the 400 HTTPException
    raised inside the try block is caught by the blanket except and
    re-raised as a 500 whose detail is the rendering of the original
    exception. -/
theorem c1_invalid_url_gives_500_no_calls
    (tsvc : List Char → Except PyExn TranscriptData)
    (csvc : List Char → List ChapterData) :
    extract_video_id (("random text").toList) = none ∧
    get_transcript tsvc csvc (("random text").toList) =
      (.error (.http 500 (strOfExn (.http 400 (("Invalid YouTube URL").toList)))), []) ∧
    responseStatus (get_transcript tsvc csvc (("random text").toList)).1 = 500 ∧
    responseStatus (get_transcript tsvc csvc (("random text").toList)).1 ≠ 400 ∧
    (get_transcript tsvc csvc (("random text").toList)).2 = [] := by
  have h : extract_video_id (("random text").toList) = none := by decide
  have h2 : get_transcript tsvc csvc (("random text").toList) =
      (.error (.http 500 (strOfExn (.http 400 (("Invalid YouTube URL").toList)))), []) := by
    unfold get_transcript getTranscriptBody
    rw [h]
  refine ⟨h, h2, ?_, ?_, ?_⟩ <;> rw [h2] <;> decide

set_option maxRecDepth 8192 in
/-- Witness for C9 at a concrete unpunctuated fragment list of 239
    characters. -/
theorem c9_degenerate_resegmentation_witness :
    sentencesOf [Segment.text (("aaaaa aaaaa aaaaa aaaaa aaaaa aaaaa aaaaa aaaaa aaaaa aaaaa aaaaa aaaaa aaaaa aaaaa aaaaa aaaaa aaaaa aaaaa aaaaa aaaaa aaaaa aaaaa aaaaa aaaaa aaaaa aaaaa aaaaa aaaaa aaaaa aaaaa aaaaa aaaaa aaaaa aaaaa aaaaa aaaaa aaaaa aaaaa aaaaa aaaaa").toList)] =
      specResegment (pyWords (fullTextOf [Segment.text (("aaaaa aaaaa aaaaa aaaaa aaaaa aaaaa aaaaa aaaaa aaaaa aaaaa aaaaa aaaaa aaaaa aaaaa aaaaa aaaaa aaaaa aaaaa aaaaa aaaaa aaaaa aaaaa aaaaa aaaaa aaaaa aaaaa aaaaa aaaaa aaaaa aaaaa aaaaa aaaaa aaaaa aaaaa aaaaa aaaaa aaaaa aaaaa aaaaa aaaaa").toList)])) :=
  c9_degenerate_resegmentation [Segment.text (("aaaaa aaaaa aaaaa aaaaa aaaaa aaaaa aaaaa aaaaa aaaaa aaaaa aaaaa aaaaa aaaaa aaaaa aaaaa aaaaa aaaaa aaaaa aaaaa aaaaa aaaaa aaaaa aaaaa aaaaa aaaaa aaaaa aaaaa aaaaa aaaaa aaaaa aaaaa aaaaa aaaaa aaaaa aaaaa aaaaa aaaaa aaaaa aaaaa aaaaa").toList)]
    (by decide) (by decide)

/- ## Helper lemmas: the URL pattern matchers -/

lemma orO_none {α : Type} (b : Option α) : orO none b = b := rfl

lemma orO_some {α : Type} (v : α) (b : Option α) : orO (some v) b = some v := rfl

lemma not_space_of_idChar {c : Char} (h : isIdChar c = true) : isSpaceC c = false := by
  cases hx : isSpaceC c
  · rfl
  · rcases isSpaceC_elim hx with rfl | rfl | rfl | rfl | rfl | rfl <;> exact absurd h (by decide)

lemma validId_all {id : List Char} (h : validId id = true) : id.all isIdChar = true := by
  unfold validId at h
  exact (Bool.and_eq_true_iff.mp h).2

lemma validId_length {id : List Char} (h : validId id = true) : id.length = 11 := by
  unfold validId at h
  simpa using (Bool.and_eq_true_iff.mp h).1

lemma validId_is_valid {id : List Char} (h : validId id = true) :
    _is_valid_video_id id = true := by
  unfold _is_valid_video_id
  rw [h]
  rfl

lemma validId_isEmpty {id : List Char} (h : validId id = true) : id.isEmpty = false := by
  have hl := validId_length h
  cases id with
  | nil => simp at hl
  | cons c cs => rfl

lemma all_not_space_of_all_idChar {l : List Char} (h : l.all isIdChar = true) :
    l.all (fun c => !isSpaceC c) = true := by
  simp only [List.all_eq_true] at h ⊢
  intro c hc
  simp [not_space_of_idChar (h c hc)]

lemma append_no_ws {pre id : List Char} (hpre : pre.all (fun c => !isSpaceC c) = true)
    (hid : id.all isIdChar = true) : (pre ++ id).all (fun c => !isSpaceC c) = true := by
  rw [List.all_append, hpre, Bool.true_and]
  exact all_not_space_of_all_idChar hid

lemma lowc_idChar {c : Char} (h : isIdChar c = true) : isIdChar (lowc c) = true := by
  unfold lowc
  by_cases hc : ('A' ≤ c && c ≤ 'Z') = true
  · rw [if_pos hc]
    simp only [Bool.and_eq_true, decide_eq_true_eq] at hc
    have h1 : (65 : Nat) ≤ c.toNat := hc.1
    have h2 : c.toNat ≤ 90 := hc.2
    have ht : (Char.ofNat (c.toNat + 32)).toNat = c.toNat + 32 := char_toNat_ofNat (by omega)
    have hx : ('a' ≤ Char.ofNat (c.toNat + 32)) := by
      rw [char_le_iff, ht]
      show 97 ≤ c.toNat + 32
      omega
    have hy : (Char.ofNat (c.toNat + 32) ≤ 'z') := by
      rw [char_le_iff, ht]
      show c.toNat + 32 ≤ 122
      omega
    simp [isIdChar, hx, hy]
  · rw [if_neg hc]
    exact h

lemma matchLit_self : ∀ (l rest : List Char), matchLit l (l ++ rest) = some rest := by
  intro l rest
  induction l with
  | nil => rfl
  | cons c cs ih =>
    show matchLit (c :: cs) (c :: (cs ++ rest)) = some rest
    unfold matchLit
    rw [if_pos rfl]
    exact ih

lemma matchLit_none_of_nonClass :
    ∀ (pat l : List Char), pat.any (fun c => !isIdChar (lowc c)) = true →
      l.all isIdChar = true → matchLit pat l = none := by
  intro pat
  induction pat with
  | nil => intro l h _; simp at h
  | cons p ps ih =>
    intro l hp hl
    cases l with
    | nil => rfl
    | cons c cs =>
      simp only [List.all_cons, Bool.and_eq_true] at hl
      unfold matchLit
      by_cases hcc : isIdChar (lowc p) = true
      · have hps : ps.any (fun c => !isIdChar (lowc c)) = true := by
          simp only [List.any_cons, Bool.or_eq_true] at hp
          rcases hp with hp | hp
          · rw [hcc] at hp
            simp at hp
          · exact hp
        by_cases he : lowc c = lowc p
        · rw [if_pos he]
          exact ih cs hps hl.2
        · rw [if_neg he]
      · have he : lowc c ≠ lowc p := by
          intro heq
          rw [← heq] at hcc
          exact hcc (lowc_idChar hl.1)
        rw [if_neg he]

lemma matchCore_self (lit rest : List Char) : matchCore lit (lit ++ rest) = idTail rest := by
  unfold matchCore
  rw [matchLit_self]

lemma matchCore_none {lit l : List Char}
    (hlit : lit.any (fun c => !isIdChar (lowc c)) = true) (hl : l.all isIdChar = true) :
    matchCore lit l = none := by
  unfold matchCore
  rw [matchLit_none_of_nonClass lit l hlit hl]

lemma wwwBranch_some {lit l r : List Char} (h : matchLit (("www.").toList) l = some r) :
    wwwBranch lit l = matchCore lit r := by
  unfold wwwBranch
  rw [h]

lemma wwwBranch_none {lit l : List Char} (h : matchLit (("www.").toList) l = none) :
    wwwBranch lit l = none := by
  unfold wwwBranch
  rw [h]

lemma schemeBranch_some {www : Bool} {lit sch l r : List Char} (h : matchLit sch l = some r) :
    schemeBranch www lit sch l = contWww www lit r := by
  unfold schemeBranch
  rw [h]

lemma schemeBranch_none {www : Bool} {lit sch l : List Char} (h : matchLit sch l = none) :
    schemeBranch www lit sch l = none := by
  unfold schemeBranch
  rw [h]

lemma contWww_true (lit l : List Char) :
    contWww true lit l = orO (wwwBranch lit l) (matchCore lit l) := rfl

lemma contWww_false (lit l : List Char) : contWww false lit l = matchCore lit l := rfl

lemma contWww_none {www : Bool} {lit l : List Char}
    (hlit : lit.any (fun c => !isIdChar (lowc c)) = true) (hl : l.all isIdChar = true) :
    contWww www lit l = none := by
  cases www
  · rw [contWww_false, matchCore_none hlit hl]
  · rw [contWww_true, wwwBranch_none (matchLit_none_of_nonClass _ l (by decide) hl),
      orO_none, matchCore_none hlit hl]

lemma matchPatAt_none {www : Bool} {lit l : List Char}
    (hlit : lit.any (fun c => !isIdChar (lowc c)) = true) (hl : l.all isIdChar = true) :
    matchPatAt www lit l = none := by
  unfold matchPatAt
  rw [schemeBranch_none (matchLit_none_of_nonClass _ l (by decide) hl),
    schemeBranch_none (matchLit_none_of_nonClass _ l (by decide) hl),
    orO_none, orO_none, contWww_none hlit hl]

lemma searchPat_none_allClass {www : Bool} {lit : List Char}
    (hlit : lit.any (fun c => !isIdChar (lowc c)) = true) :
    ∀ l : List Char, l.all isIdChar = true → searchPat www lit l = none := by
  intro l
  induction l with
  | nil => intro _; rfl
  | cons c cs ih =>
    intro h
    simp only [List.all_cons, Bool.and_eq_true] at h
    unfold searchPat
    rw [matchPatAt_none hlit (by simp [List.all_cons, h.1, h.2]), orO_none]
    exact ih h.2

lemma searchPat_hit {www : Bool} {lit : List Char} {c : Char} {cs v : List Char}
    (h : matchPatAt www lit (c :: cs) = some v) : searchPat www lit (c :: cs) = some v := by
  unfold searchPat
  rw [h]
  rfl

lemma takeIdChars_all :
    ∀ id : List Char, id.all isIdChar = true → takeIdChars id.length id = some (id, []) := by
  intro id
  induction id with
  | nil => intro _; rfl
  | cons c cs ih =>
    intro hall
    simp only [List.all_cons, Bool.and_eq_true] at hall
    show takeIdChars (cs.length + 1) (c :: cs) = some (c :: cs, [])
    unfold takeIdChars
    rw [if_pos hall.1, ih hall.2]
    rfl

lemma idTail_valid {id : List Char} (hv : validId id = true) : idTail id = some id := by
  unfold idTail
  rw [show (11 : Nat) = id.length from (validId_length hv).symm,
    takeIdChars_all id (validId_all hv)]
  rfl

lemma matchBare_valid {id : List Char} (hv : validId id = true) : matchBare id = some id := by
  unfold matchBare
  rw [show (11 : Nat) = id.length from (validId_length hv).symm,
    takeIdChars_all id (validId_all hv)]

lemma patStep_none (rest : Option (List Char)) : patStep none rest = rest := rfl

lemma patStep_some_valid {v : List Char} (rest : Option (List Char))
    (h : _is_valid_video_id v = true) : patStep (some v) rest = some v := by
  show (if _is_valid_video_id v = true then some v else rest) = some v
  rw [if_pos h]

/- Hit lemmas for one pattern at the head of the text, one per combination
   of scheme presence and www presence. -/

lemma matchPatAt_hit_https_www {lit rest v : List Char} (hit : idTail rest = some v) :
    matchPatAt true lit
      ((("https://").toList) ++ ((("www.").toList) ++ (lit ++ rest))) = some v := by
  unfold matchPatAt
  rw [schemeBranch_some (matchLit_self _ _), contWww_true,
    wwwBranch_some (matchLit_self _ _), matchCore_self, hit, orO_some, orO_some]

lemma matchPatAt_hit_https_nowww {lit rest v : List Char}
    (hww : matchLit (("www.").toList) (lit ++ rest) = none) (hit : idTail rest = some v) :
    matchPatAt true lit ((("https://").toList) ++ (lit ++ rest)) = some v := by
  unfold matchPatAt
  rw [schemeBranch_some (matchLit_self _ _), contWww_true, wwwBranch_none hww,
    orO_none, matchCore_self, hit, orO_some]

lemma matchPatAt_hit_www {lit rest v : List Char}
    (hs1 : matchLit (("https://").toList) ((("www.").toList) ++ (lit ++ rest)) = none)
    (hs2 : matchLit (("http://").toList) ((("www.").toList) ++ (lit ++ rest)) = none)
    (hit : idTail rest = some v) :
    matchPatAt true lit ((("www.").toList) ++ (lit ++ rest)) = some v := by
  unfold matchPatAt
  rw [schemeBranch_none hs1, schemeBranch_none hs2, orO_none, orO_none, contWww_true,
    wwwBranch_some (matchLit_self _ _), matchCore_self, hit, orO_some]

lemma matchPatAt_hit_plain {lit rest v : List Char}
    (hs1 : matchLit (("https://").toList) (lit ++ rest) = none)
    (hs2 : matchLit (("http://").toList) (lit ++ rest) = none)
    (hww : matchLit (("www.").toList) (lit ++ rest) = none) (hit : idTail rest = some v) :
    matchPatAt true lit (lit ++ rest) = some v := by
  unfold matchPatAt
  rw [schemeBranch_none hs1, schemeBranch_none hs2, orO_none, orO_none, contWww_true,
    wwwBranch_none hww, orO_none, matchCore_self, hit]

lemma matchPatAt_hit_https_f {lit rest v : List Char} (hit : idTail rest = some v) :
    matchPatAt false lit ((("https://").toList) ++ (lit ++ rest)) = some v := by
  unfold matchPatAt
  rw [schemeBranch_some (matchLit_self _ _), contWww_false, matchCore_self, hit, orO_some]

lemma matchPatAt_hit_plain_f {lit rest v : List Char}
    (hs1 : matchLit (("https://").toList) (lit ++ rest) = none)
    (hs2 : matchLit (("http://").toList) (lit ++ rest) = none) (hit : idTail rest = some v) :
    matchPatAt false lit (lit ++ rest) = some v := by
  unfold matchPatAt
  rw [schemeBranch_none hs1, schemeBranch_none hs2, orO_none, orO_none, contWww_false,
    matchCore_self, hit]

lemma dropWhile_not_space {m : List Char} (hm : m.all (fun c => !isSpaceC c) = true) :
    m.dropWhile isSpaceC = m := by
  cases m with
  | nil => rfl
  | cons c cs =>
    simp only [List.all_cons, Bool.and_eq_true] at hm
    rw [List.dropWhile_cons]
    have hc : isSpaceC c = false := by simpa using hm.1
    rw [hc]
    simp

lemma pyStrip_no_ws {l : List Char} (h : l.all (fun c => !isSpaceC c) = true) :
    pyStrip l = l := by
  unfold pyStrip
  rw [dropWhile_not_space h, dropWhile_not_space (by rw [List.all_reverse]; exact h),
    List.reverse_reverse]

lemma searchPat_hit_pre {www : Bool} {lit v pre tail : List Char}
    (h : matchPatAt www lit (pre ++ tail) = some v) (hpre : pre.isEmpty = false) :
    searchPat www lit (pre ++ tail) = some v := by
  cases pre with
  | nil => simp at hpre
  | cons c cs =>
    rw [List.cons_append] at h ⊢
    exact searchPat_hit h

lemma extract_of_patterns {url v : List Char} (hne : url.isEmpty = false)
    (h : _extract_with_patterns (pyStrip url) = some v) :
    extract_video_id url = some v := by
  simp only [extract_video_id]
  rw [hne, if_neg (by decide : ¬(false = true)), h]

lemma patStep_valid {r rest : Option (List Char)} {v : List Char}
    (hrest : rest = some v → _is_valid_video_id v = true)
    (h : patStep r rest = some v) : _is_valid_video_id v = true := by
  cases r with
  | none => exact hrest h
  | some w =>
    have hh : (if _is_valid_video_id w = true then some w else rest) = some v := h
    by_cases hw : _is_valid_video_id w = true
    · rw [if_pos hw] at hh
      injection hh with e
      subst e
      exact hw
    · rw [if_neg hw] at hh
      exact hrest hh

lemma patterns_valid {u v : List Char} (h : _extract_with_patterns u = some v) :
    _is_valid_video_id v = true := by
  unfold _extract_with_patterns at h
  exact patStep_valid (fun h2 => patStep_valid (fun h3 => patStep_valid (fun h4 =>
    patStep_valid (fun h5 => patStep_valid (fun h6 => patStep_valid (fun h7 =>
    patStep_valid (fun h8 => absurd h8 (by simp)) h7) h6) h5) h4) h3) h2) h

lemma urlparse_valid {u v : List Char} (h : _extract_with_urlparse u = some v) :
    _is_valid_video_id v = true := by
  simp only [_extract_with_urlparse] at h
  repeat' split at h
  all_goals simp_all [Bool.and_eq_true]

lemma extract_valid {s v : List Char} (h : extract_video_id s = some v) :
    _is_valid_video_id v = true := by
  simp only [extract_video_id] at h
  by_cases he : s.isEmpty = true
  · rw [if_pos he] at h
    exact absurd h (by simp)
  · rw [if_neg he] at h
    cases hp : _extract_with_patterns (pyStrip s) with
    | some w =>
      rw [hp] at h
      have h2 : some w = some v := h
      injection h2 with e
      subst e
      exact patterns_valid hp
    | none =>
      rw [hp] at h
      have h2 : _extract_with_urlparse (pyStrip s) = some v := h
      exact urlparse_valid h2

/- Each supported URL shape around a valid identifier resolves through the
   regex patterns to that identifier. -/

lemma sp_watch_hw {id : List Char} (hv : validId id = true) :
    extract_video_id ((("https://www.youtube.com/watch?v=").toList) ++ id) = some id := by
  have hall := validId_all hv
  apply extract_of_patterns
  · rfl
  have hps : pyStrip ((("https://www.youtube.com/watch?v=").toList) ++ id) = (("https://www.youtube.com/watch?v=").toList) ++ id :=
    pyStrip_no_ws (append_no_ws (by decide) hall)
  rw [hps]
  have hh : searchPat true (("youtube.com/watch?v=").toList)
      ((("https://").toList) ++ ((("www.").toList) ++ ((("youtube.com/watch?v=").toList) ++ id))) = some id :=
    searchPat_hit_pre (matchPatAt_hit_https_www (idTail_valid hv)) rfl
  unfold _extract_with_patterns
  rw [show (("https://www.youtube.com/watch?v=").toList) ++ id =
      (("https://").toList) ++ ((("www.").toList) ++ ((("youtube.com/watch?v=").toList) ++ id)) from rfl]
  rw [hh]
  exact patStep_some_valid _ (validId_is_valid hv)

lemma sp_watch_h {id : List Char} (hv : validId id = true) :
    extract_video_id ((("https://youtube.com/watch?v=").toList) ++ id) = some id := by
  have hall := validId_all hv
  apply extract_of_patterns
  · rfl
  have hps : pyStrip ((("https://youtube.com/watch?v=").toList) ++ id) = (("https://youtube.com/watch?v=").toList) ++ id :=
    pyStrip_no_ws (append_no_ws (by decide) hall)
  rw [hps]
  have hh : searchPat true (("youtube.com/watch?v=").toList)
      ((("https://").toList) ++ ((("youtube.com/watch?v=").toList) ++ id)) = some id :=
    searchPat_hit_pre (matchPatAt_hit_https_nowww rfl (idTail_valid hv)) rfl
  unfold _extract_with_patterns
  rw [show (("https://youtube.com/watch?v=").toList) ++ id =
      (("https://").toList) ++ ((("youtube.com/watch?v=").toList) ++ id) from rfl]
  rw [hh]
  exact patStep_some_valid _ (validId_is_valid hv)

lemma sp_watch_w {id : List Char} (hv : validId id = true) :
    extract_video_id ((("www.youtube.com/watch?v=").toList) ++ id) = some id := by
  have hall := validId_all hv
  apply extract_of_patterns
  · rfl
  have hps : pyStrip ((("www.youtube.com/watch?v=").toList) ++ id) = (("www.youtube.com/watch?v=").toList) ++ id :=
    pyStrip_no_ws (append_no_ws (by decide) hall)
  rw [hps]
  have hh : searchPat true (("youtube.com/watch?v=").toList)
      ((("www.").toList) ++ ((("youtube.com/watch?v=").toList) ++ id)) = some id :=
    searchPat_hit_pre (matchPatAt_hit_www rfl rfl (idTail_valid hv)) rfl
  unfold _extract_with_patterns
  rw [show (("www.youtube.com/watch?v=").toList) ++ id =
      (("www.").toList) ++ ((("youtube.com/watch?v=").toList) ++ id) from rfl]
  rw [hh]
  exact patStep_some_valid _ (validId_is_valid hv)

lemma sp_watch_p {id : List Char} (hv : validId id = true) :
    extract_video_id ((("youtube.com/watch?v=").toList) ++ id) = some id := by
  have hall := validId_all hv
  apply extract_of_patterns
  · rfl
  have hps : pyStrip ((("youtube.com/watch?v=").toList) ++ id) = (("youtube.com/watch?v=").toList) ++ id :=
    pyStrip_no_ws (append_no_ws (by decide) hall)
  rw [hps]
  have hh : searchPat true (("youtube.com/watch?v=").toList)
      ((("youtube.com/watch?v=").toList) ++ id) = some id :=
    searchPat_hit_pre (matchPatAt_hit_plain rfl rfl rfl (idTail_valid hv)) rfl
  unfold _extract_with_patterns
  rw [hh]
  exact patStep_some_valid _ (validId_is_valid hv)

lemma sp_be_h {id : List Char} (hv : validId id = true) :
    extract_video_id ((("https://youtu.be/").toList) ++ id) = some id := by
  have hall := validId_all hv
  apply extract_of_patterns
  · rfl
  have hps : pyStrip ((("https://youtu.be/").toList) ++ id) = (("https://youtu.be/").toList) ++ id :=
    pyStrip_no_ws (append_no_ws (by decide) hall)
  rw [hps]
  have hn1 : searchPat true (("youtube.com/watch?v=").toList)
      ((("https://youtu.be/").toList) ++ id) = none := by
    rw [show searchPat true (("youtube.com/watch?v=").toList)
          ((("https://youtu.be/").toList) ++ id)
        = searchPat true (("youtube.com/watch?v=").toList) id from rfl]
    exact searchPat_none_allClass (by decide) id hall
  have hh : searchPat false (("youtu.be/").toList)
      ((("https://").toList) ++ ((("youtu.be/").toList) ++ id)) = some id :=
    searchPat_hit_pre (matchPatAt_hit_https_f (idTail_valid hv)) rfl
  unfold _extract_with_patterns
  rw [hn1, patStep_none]
  rw [show (("https://youtu.be/").toList) ++ id =
      (("https://").toList) ++ ((("youtu.be/").toList) ++ id) from rfl]
  rw [hh]
  exact patStep_some_valid _ (validId_is_valid hv)

lemma sp_be_p {id : List Char} (hv : validId id = true) :
    extract_video_id ((("youtu.be/").toList) ++ id) = some id := by
  have hall := validId_all hv
  apply extract_of_patterns
  · rfl
  have hps : pyStrip ((("youtu.be/").toList) ++ id) = (("youtu.be/").toList) ++ id :=
    pyStrip_no_ws (append_no_ws (by decide) hall)
  rw [hps]
  have hn1 : searchPat true (("youtube.com/watch?v=").toList)
      ((("youtu.be/").toList) ++ id) = none := by
    rw [show searchPat true (("youtube.com/watch?v=").toList)
          ((("youtu.be/").toList) ++ id)
        = searchPat true (("youtube.com/watch?v=").toList) id from rfl]
    exact searchPat_none_allClass (by decide) id hall
  have hh : searchPat false (("youtu.be/").toList)
      ((("youtu.be/").toList) ++ id) = some id :=
    searchPat_hit_pre (matchPatAt_hit_plain_f rfl rfl (idTail_valid hv)) rfl
  unfold _extract_with_patterns
  rw [hn1, patStep_none]
  rw [hh]
  exact patStep_some_valid _ (validId_is_valid hv)

lemma sp_embed_hw {id : List Char} (hv : validId id = true) :
    extract_video_id ((("https://www.youtube.com/embed/").toList) ++ id) = some id := by
  have hall := validId_all hv
  apply extract_of_patterns
  · rfl
  have hps : pyStrip ((("https://www.youtube.com/embed/").toList) ++ id) = (("https://www.youtube.com/embed/").toList) ++ id :=
    pyStrip_no_ws (append_no_ws (by decide) hall)
  rw [hps]
  have hn1 : searchPat true (("youtube.com/watch?v=").toList)
      ((("https://www.youtube.com/embed/").toList) ++ id) = none := by
    rw [show searchPat true (("youtube.com/watch?v=").toList)
          ((("https://www.youtube.com/embed/").toList) ++ id)
        = searchPat true (("youtube.com/watch?v=").toList) id from rfl]
    exact searchPat_none_allClass (by decide) id hall
  have hn2 : searchPat false (("youtu.be/").toList)
      ((("https://www.youtube.com/embed/").toList) ++ id) = none := by
    rw [show searchPat false (("youtu.be/").toList)
          ((("https://www.youtube.com/embed/").toList) ++ id)
        = searchPat false (("youtu.be/").toList) id from rfl]
    exact searchPat_none_allClass (by decide) id hall
  have hh : searchPat true (("youtube.com/embed/").toList)
      ((("https://").toList) ++ ((("www.").toList) ++ ((("youtube.com/embed/").toList) ++ id))) = some id :=
    searchPat_hit_pre (matchPatAt_hit_https_www (idTail_valid hv)) rfl
  unfold _extract_with_patterns
  rw [hn1, patStep_none, hn2, patStep_none]
  rw [show (("https://www.youtube.com/embed/").toList) ++ id =
      (("https://").toList) ++ ((("www.").toList) ++ ((("youtube.com/embed/").toList) ++ id)) from rfl]
  rw [hh]
  exact patStep_some_valid _ (validId_is_valid hv)

lemma sp_embed_h {id : List Char} (hv : validId id = true) :
    extract_video_id ((("https://youtube.com/embed/").toList) ++ id) = some id := by
  have hall := validId_all hv
  apply extract_of_patterns
  · rfl
  have hps : pyStrip ((("https://youtube.com/embed/").toList) ++ id) = (("https://youtube.com/embed/").toList) ++ id :=
    pyStrip_no_ws (append_no_ws (by decide) hall)
  rw [hps]
  have hn1 : searchPat true (("youtube.com/watch?v=").toList)
      ((("https://youtube.com/embed/").toList) ++ id) = none := by
    rw [show searchPat true (("youtube.com/watch?v=").toList)
          ((("https://youtube.com/embed/").toList) ++ id)
        = searchPat true (("youtube.com/watch?v=").toList) id from rfl]
    exact searchPat_none_allClass (by decide) id hall
  have hn2 : searchPat false (("youtu.be/").toList)
      ((("https://youtube.com/embed/").toList) ++ id) = none := by
    rw [show searchPat false (("youtu.be/").toList)
          ((("https://youtube.com/embed/").toList) ++ id)
        = searchPat false (("youtu.be/").toList) id from rfl]
    exact searchPat_none_allClass (by decide) id hall
  have hh : searchPat true (("youtube.com/embed/").toList)
      ((("https://").toList) ++ ((("youtube.com/embed/").toList) ++ id)) = some id :=
    searchPat_hit_pre (matchPatAt_hit_https_nowww rfl (idTail_valid hv)) rfl
  unfold _extract_with_patterns
  rw [hn1, patStep_none, hn2, patStep_none]
  rw [show (("https://youtube.com/embed/").toList) ++ id =
      (("https://").toList) ++ ((("youtube.com/embed/").toList) ++ id) from rfl]
  rw [hh]
  exact patStep_some_valid _ (validId_is_valid hv)

lemma sp_embed_w {id : List Char} (hv : validId id = true) :
    extract_video_id ((("www.youtube.com/embed/").toList) ++ id) = some id := by
  have hall := validId_all hv
  apply extract_of_patterns
  · rfl
  have hps : pyStrip ((("www.youtube.com/embed/").toList) ++ id) = (("www.youtube.com/embed/").toList) ++ id :=
    pyStrip_no_ws (append_no_ws (by decide) hall)
  rw [hps]
  have hn1 : searchPat true (("youtube.com/watch?v=").toList)
      ((("www.youtube.com/embed/").toList) ++ id) = none := by
    rw [show searchPat true (("youtube.com/watch?v=").toList)
          ((("www.youtube.com/embed/").toList) ++ id)
        = searchPat true (("youtube.com/watch?v=").toList) id from rfl]
    exact searchPat_none_allClass (by decide) id hall
  have hn2 : searchPat false (("youtu.be/").toList)
      ((("www.youtube.com/embed/").toList) ++ id) = none := by
    rw [show searchPat false (("youtu.be/").toList)
          ((("www.youtube.com/embed/").toList) ++ id)
        = searchPat false (("youtu.be/").toList) id from rfl]
    exact searchPat_none_allClass (by decide) id hall
  have hh : searchPat true (("youtube.com/embed/").toList)
      ((("www.").toList) ++ ((("youtube.com/embed/").toList) ++ id)) = some id :=
    searchPat_hit_pre (matchPatAt_hit_www rfl rfl (idTail_valid hv)) rfl
  unfold _extract_with_patterns
  rw [hn1, patStep_none, hn2, patStep_none]
  rw [show (("www.youtube.com/embed/").toList) ++ id =
      (("www.").toList) ++ ((("youtube.com/embed/").toList) ++ id) from rfl]
  rw [hh]
  exact patStep_some_valid _ (validId_is_valid hv)

lemma sp_embed_p {id : List Char} (hv : validId id = true) :
    extract_video_id ((("youtube.com/embed/").toList) ++ id) = some id := by
  have hall := validId_all hv
  apply extract_of_patterns
  · rfl
  have hps : pyStrip ((("youtube.com/embed/").toList) ++ id) = (("youtube.com/embed/").toList) ++ id :=
    pyStrip_no_ws (append_no_ws (by decide) hall)
  rw [hps]
  have hn1 : searchPat true (("youtube.com/watch?v=").toList)
      ((("youtube.com/embed/").toList) ++ id) = none := by
    rw [show searchPat true (("youtube.com/watch?v=").toList)
          ((("youtube.com/embed/").toList) ++ id)
        = searchPat true (("youtube.com/watch?v=").toList) id from rfl]
    exact searchPat_none_allClass (by decide) id hall
  have hn2 : searchPat false (("youtu.be/").toList)
      ((("youtube.com/embed/").toList) ++ id) = none := by
    rw [show searchPat false (("youtu.be/").toList)
          ((("youtube.com/embed/").toList) ++ id)
        = searchPat false (("youtu.be/").toList) id from rfl]
    exact searchPat_none_allClass (by decide) id hall
  have hh : searchPat true (("youtube.com/embed/").toList)
      ((("youtube.com/embed/").toList) ++ id) = some id :=
    searchPat_hit_pre (matchPatAt_hit_plain rfl rfl rfl (idTail_valid hv)) rfl
  unfold _extract_with_patterns
  rw [hn1, patStep_none, hn2, patStep_none]
  rw [hh]
  exact patStep_some_valid _ (validId_is_valid hv)

lemma sp_shorts_hw {id : List Char} (hv : validId id = true) :
    extract_video_id ((("https://www.youtube.com/shorts/").toList) ++ id) = some id := by
  have hall := validId_all hv
  apply extract_of_patterns
  · rfl
  have hps : pyStrip ((("https://www.youtube.com/shorts/").toList) ++ id) = (("https://www.youtube.com/shorts/").toList) ++ id :=
    pyStrip_no_ws (append_no_ws (by decide) hall)
  rw [hps]
  have hn1 : searchPat true (("youtube.com/watch?v=").toList)
      ((("https://www.youtube.com/shorts/").toList) ++ id) = none := by
    rw [show searchPat true (("youtube.com/watch?v=").toList)
          ((("https://www.youtube.com/shorts/").toList) ++ id)
        = searchPat true (("youtube.com/watch?v=").toList) id from rfl]
    exact searchPat_none_allClass (by decide) id hall
  have hn2 : searchPat false (("youtu.be/").toList)
      ((("https://www.youtube.com/shorts/").toList) ++ id) = none := by
    rw [show searchPat false (("youtu.be/").toList)
          ((("https://www.youtube.com/shorts/").toList) ++ id)
        = searchPat false (("youtu.be/").toList) id from rfl]
    exact searchPat_none_allClass (by decide) id hall
  have hn3 : searchPat true (("youtube.com/embed/").toList)
      ((("https://www.youtube.com/shorts/").toList) ++ id) = none := by
    rw [show searchPat true (("youtube.com/embed/").toList)
          ((("https://www.youtube.com/shorts/").toList) ++ id)
        = searchPat true (("youtube.com/embed/").toList) id from rfl]
    exact searchPat_none_allClass (by decide) id hall
  have hh : searchPat true (("youtube.com/shorts/").toList)
      ((("https://").toList) ++ ((("www.").toList) ++ ((("youtube.com/shorts/").toList) ++ id))) = some id :=
    searchPat_hit_pre (matchPatAt_hit_https_www (idTail_valid hv)) rfl
  unfold _extract_with_patterns
  rw [hn1, patStep_none, hn2, patStep_none, hn3, patStep_none]
  rw [show (("https://www.youtube.com/shorts/").toList) ++ id =
      (("https://").toList) ++ ((("www.").toList) ++ ((("youtube.com/shorts/").toList) ++ id)) from rfl]
  rw [hh]
  exact patStep_some_valid _ (validId_is_valid hv)

lemma sp_shorts_h {id : List Char} (hv : validId id = true) :
    extract_video_id ((("https://youtube.com/shorts/").toList) ++ id) = some id := by
  have hall := validId_all hv
  apply extract_of_patterns
  · rfl
  have hps : pyStrip ((("https://youtube.com/shorts/").toList) ++ id) = (("https://youtube.com/shorts/").toList) ++ id :=
    pyStrip_no_ws (append_no_ws (by decide) hall)
  rw [hps]
  have hn1 : searchPat true (("youtube.com/watch?v=").toList)
      ((("https://youtube.com/shorts/").toList) ++ id) = none := by
    rw [show searchPat true (("youtube.com/watch?v=").toList)
          ((("https://youtube.com/shorts/").toList) ++ id)
        = searchPat true (("youtube.com/watch?v=").toList) id from rfl]
    exact searchPat_none_allClass (by decide) id hall
  have hn2 : searchPat false (("youtu.be/").toList)
      ((("https://youtube.com/shorts/").toList) ++ id) = none := by
    rw [show searchPat false (("youtu.be/").toList)
          ((("https://youtube.com/shorts/").toList) ++ id)
        = searchPat false (("youtu.be/").toList) id from rfl]
    exact searchPat_none_allClass (by decide) id hall
  have hn3 : searchPat true (("youtube.com/embed/").toList)
      ((("https://youtube.com/shorts/").toList) ++ id) = none := by
    rw [show searchPat true (("youtube.com/embed/").toList)
          ((("https://youtube.com/shorts/").toList) ++ id)
        = searchPat true (("youtube.com/embed/").toList) id from rfl]
    exact searchPat_none_allClass (by decide) id hall
  have hh : searchPat true (("youtube.com/shorts/").toList)
      ((("https://").toList) ++ ((("youtube.com/shorts/").toList) ++ id)) = some id :=
    searchPat_hit_pre (matchPatAt_hit_https_nowww rfl (idTail_valid hv)) rfl
  unfold _extract_with_patterns
  rw [hn1, patStep_none, hn2, patStep_none, hn3, patStep_none]
  rw [show (("https://youtube.com/shorts/").toList) ++ id =
      (("https://").toList) ++ ((("youtube.com/shorts/").toList) ++ id) from rfl]
  rw [hh]
  exact patStep_some_valid _ (validId_is_valid hv)

lemma sp_shorts_w {id : List Char} (hv : validId id = true) :
    extract_video_id ((("www.youtube.com/shorts/").toList) ++ id) = some id := by
  have hall := validId_all hv
  apply extract_of_patterns
  · rfl
  have hps : pyStrip ((("www.youtube.com/shorts/").toList) ++ id) = (("www.youtube.com/shorts/").toList) ++ id :=
    pyStrip_no_ws (append_no_ws (by decide) hall)
  rw [hps]
  have hn1 : searchPat true (("youtube.com/watch?v=").toList)
      ((("www.youtube.com/shorts/").toList) ++ id) = none := by
    rw [show searchPat true (("youtube.com/watch?v=").toList)
          ((("www.youtube.com/shorts/").toList) ++ id)
        = searchPat true (("youtube.com/watch?v=").toList) id from rfl]
    exact searchPat_none_allClass (by decide) id hall
  have hn2 : searchPat false (("youtu.be/").toList)
      ((("www.youtube.com/shorts/").toList) ++ id) = none := by
    rw [show searchPat false (("youtu.be/").toList)
          ((("www.youtube.com/shorts/").toList) ++ id)
        = searchPat false (("youtu.be/").toList) id from rfl]
    exact searchPat_none_allClass (by decide) id hall
  have hn3 : searchPat true (("youtube.com/embed/").toList)
      ((("www.youtube.com/shorts/").toList) ++ id) = none := by
    rw [show searchPat true (("youtube.com/embed/").toList)
          ((("www.youtube.com/shorts/").toList) ++ id)
        = searchPat true (("youtube.com/embed/").toList) id from rfl]
    exact searchPat_none_allClass (by decide) id hall
  have hh : searchPat true (("youtube.com/shorts/").toList)
      ((("www.").toList) ++ ((("youtube.com/shorts/").toList) ++ id)) = some id :=
    searchPat_hit_pre (matchPatAt_hit_www rfl rfl (idTail_valid hv)) rfl
  unfold _extract_with_patterns
  rw [hn1, patStep_none, hn2, patStep_none, hn3, patStep_none]
  rw [show (("www.youtube.com/shorts/").toList) ++ id =
      (("www.").toList) ++ ((("youtube.com/shorts/").toList) ++ id) from rfl]
  rw [hh]
  exact patStep_some_valid _ (validId_is_valid hv)

lemma sp_shorts_p {id : List Char} (hv : validId id = true) :
    extract_video_id ((("youtube.com/shorts/").toList) ++ id) = some id := by
  have hall := validId_all hv
  apply extract_of_patterns
  · rfl
  have hps : pyStrip ((("youtube.com/shorts/").toList) ++ id) = (("youtube.com/shorts/").toList) ++ id :=
    pyStrip_no_ws (append_no_ws (by decide) hall)
  rw [hps]
  have hn1 : searchPat true (("youtube.com/watch?v=").toList)
      ((("youtube.com/shorts/").toList) ++ id) = none := by
    rw [show searchPat true (("youtube.com/watch?v=").toList)
          ((("youtube.com/shorts/").toList) ++ id)
        = searchPat true (("youtube.com/watch?v=").toList) id from rfl]
    exact searchPat_none_allClass (by decide) id hall
  have hn2 : searchPat false (("youtu.be/").toList)
      ((("youtube.com/shorts/").toList) ++ id) = none := by
    rw [show searchPat false (("youtu.be/").toList)
          ((("youtube.com/shorts/").toList) ++ id)
        = searchPat false (("youtu.be/").toList) id from rfl]
    exact searchPat_none_allClass (by decide) id hall
  have hn3 : searchPat true (("youtube.com/embed/").toList)
      ((("youtube.com/shorts/").toList) ++ id) = none := by
    rw [show searchPat true (("youtube.com/embed/").toList)
          ((("youtube.com/shorts/").toList) ++ id)
        = searchPat true (("youtube.com/embed/").toList) id from rfl]
    exact searchPat_none_allClass (by decide) id hall
  have hh : searchPat true (("youtube.com/shorts/").toList)
      ((("youtube.com/shorts/").toList) ++ id) = some id :=
    searchPat_hit_pre (matchPatAt_hit_plain rfl rfl rfl (idTail_valid hv)) rfl
  unfold _extract_with_patterns
  rw [hn1, patStep_none, hn2, patStep_none, hn3, patStep_none]
  rw [hh]
  exact patStep_some_valid _ (validId_is_valid hv)

lemma sp_live_hw {id : List Char} (hv : validId id = true) :
    extract_video_id ((("https://www.youtube.com/live/").toList) ++ id) = some id := by
  have hall := validId_all hv
  apply extract_of_patterns
  · rfl
  have hps : pyStrip ((("https://www.youtube.com/live/").toList) ++ id) = (("https://www.youtube.com/live/").toList) ++ id :=
    pyStrip_no_ws (append_no_ws (by decide) hall)
  rw [hps]
  have hn1 : searchPat true (("youtube.com/watch?v=").toList)
      ((("https://www.youtube.com/live/").toList) ++ id) = none := by
    rw [show searchPat true (("youtube.com/watch?v=").toList)
          ((("https://www.youtube.com/live/").toList) ++ id)
        = searchPat true (("youtube.com/watch?v=").toList) id from rfl]
    exact searchPat_none_allClass (by decide) id hall
  have hn2 : searchPat false (("youtu.be/").toList)
      ((("https://www.youtube.com/live/").toList) ++ id) = none := by
    rw [show searchPat false (("youtu.be/").toList)
          ((("https://www.youtube.com/live/").toList) ++ id)
        = searchPat false (("youtu.be/").toList) id from rfl]
    exact searchPat_none_allClass (by decide) id hall
  have hn3 : searchPat true (("youtube.com/embed/").toList)
      ((("https://www.youtube.com/live/").toList) ++ id) = none := by
    rw [show searchPat true (("youtube.com/embed/").toList)
          ((("https://www.youtube.com/live/").toList) ++ id)
        = searchPat true (("youtube.com/embed/").toList) id from rfl]
    exact searchPat_none_allClass (by decide) id hall
  have hn4 : searchPat true (("youtube.com/shorts/").toList)
      ((("https://www.youtube.com/live/").toList) ++ id) = none := by
    rw [show searchPat true (("youtube.com/shorts/").toList)
          ((("https://www.youtube.com/live/").toList) ++ id)
        = searchPat true (("youtube.com/shorts/").toList) id from rfl]
    exact searchPat_none_allClass (by decide) id hall
  have hh : searchPat true (("youtube.com/live/").toList)
      ((("https://").toList) ++ ((("www.").toList) ++ ((("youtube.com/live/").toList) ++ id))) = some id :=
    searchPat_hit_pre (matchPatAt_hit_https_www (idTail_valid hv)) rfl
  unfold _extract_with_patterns
  rw [hn1, patStep_none, hn2, patStep_none, hn3, patStep_none, hn4, patStep_none]
  rw [show (("https://www.youtube.com/live/").toList) ++ id =
      (("https://").toList) ++ ((("www.").toList) ++ ((("youtube.com/live/").toList) ++ id)) from rfl]
  rw [hh]
  exact patStep_some_valid _ (validId_is_valid hv)

lemma sp_live_h {id : List Char} (hv : validId id = true) :
    extract_video_id ((("https://youtube.com/live/").toList) ++ id) = some id := by
  have hall := validId_all hv
  apply extract_of_patterns
  · rfl
  have hps : pyStrip ((("https://youtube.com/live/").toList) ++ id) = (("https://youtube.com/live/").toList) ++ id :=
    pyStrip_no_ws (append_no_ws (by decide) hall)
  rw [hps]
  have hn1 : searchPat true (("youtube.com/watch?v=").toList)
      ((("https://youtube.com/live/").toList) ++ id) = none := by
    rw [show searchPat true (("youtube.com/watch?v=").toList)
          ((("https://youtube.com/live/").toList) ++ id)
        = searchPat true (("youtube.com/watch?v=").toList) id from rfl]
    exact searchPat_none_allClass (by decide) id hall
  have hn2 : searchPat false (("youtu.be/").toList)
      ((("https://youtube.com/live/").toList) ++ id) = none := by
    rw [show searchPat false (("youtu.be/").toList)
          ((("https://youtube.com/live/").toList) ++ id)
        = searchPat false (("youtu.be/").toList) id from rfl]
    exact searchPat_none_allClass (by decide) id hall
  have hn3 : searchPat true (("youtube.com/embed/").toList)
      ((("https://youtube.com/live/").toList) ++ id) = none := by
    rw [show searchPat true (("youtube.com/embed/").toList)
          ((("https://youtube.com/live/").toList) ++ id)
        = searchPat true (("youtube.com/embed/").toList) id from rfl]
    exact searchPat_none_allClass (by decide) id hall
  have hn4 : searchPat true (("youtube.com/shorts/").toList)
      ((("https://youtube.com/live/").toList) ++ id) = none := by
    rw [show searchPat true (("youtube.com/shorts/").toList)
          ((("https://youtube.com/live/").toList) ++ id)
        = searchPat true (("youtube.com/shorts/").toList) id from rfl]
    exact searchPat_none_allClass (by decide) id hall
  have hh : searchPat true (("youtube.com/live/").toList)
      ((("https://").toList) ++ ((("youtube.com/live/").toList) ++ id)) = some id :=
    searchPat_hit_pre (matchPatAt_hit_https_nowww rfl (idTail_valid hv)) rfl
  unfold _extract_with_patterns
  rw [hn1, patStep_none, hn2, patStep_none, hn3, patStep_none, hn4, patStep_none]
  rw [show (("https://youtube.com/live/").toList) ++ id =
      (("https://").toList) ++ ((("youtube.com/live/").toList) ++ id) from rfl]
  rw [hh]
  exact patStep_some_valid _ (validId_is_valid hv)

lemma sp_live_w {id : List Char} (hv : validId id = true) :
    extract_video_id ((("www.youtube.com/live/").toList) ++ id) = some id := by
  have hall := validId_all hv
  apply extract_of_patterns
  · rfl
  have hps : pyStrip ((("www.youtube.com/live/").toList) ++ id) = (("www.youtube.com/live/").toList) ++ id :=
    pyStrip_no_ws (append_no_ws (by decide) hall)
  rw [hps]
  have hn1 : searchPat true (("youtube.com/watch?v=").toList)
      ((("www.youtube.com/live/").toList) ++ id) = none := by
    rw [show searchPat true (("youtube.com/watch?v=").toList)
          ((("www.youtube.com/live/").toList) ++ id)
        = searchPat true (("youtube.com/watch?v=").toList) id from rfl]
    exact searchPat_none_allClass (by decide) id hall
  have hn2 : searchPat false (("youtu.be/").toList)
      ((("www.youtube.com/live/").toList) ++ id) = none := by
    rw [show searchPat false (("youtu.be/").toList)
          ((("www.youtube.com/live/").toList) ++ id)
        = searchPat false (("youtu.be/").toList) id from rfl]
    exact searchPat_none_allClass (by decide) id hall
  have hn3 : searchPat true (("youtube.com/embed/").toList)
      ((("www.youtube.com/live/").toList) ++ id) = none := by
    rw [show searchPat true (("youtube.com/embed/").toList)
          ((("www.youtube.com/live/").toList) ++ id)
        = searchPat true (("youtube.com/embed/").toList) id from rfl]
    exact searchPat_none_allClass (by decide) id hall
  have hn4 : searchPat true (("youtube.com/shorts/").toList)
      ((("www.youtube.com/live/").toList) ++ id) = none := by
    rw [show searchPat true (("youtube.com/shorts/").toList)
          ((("www.youtube.com/live/").toList) ++ id)
        = searchPat true (("youtube.com/shorts/").toList) id from rfl]
    exact searchPat_none_allClass (by decide) id hall
  have hh : searchPat true (("youtube.com/live/").toList)
      ((("www.").toList) ++ ((("youtube.com/live/").toList) ++ id)) = some id :=
    searchPat_hit_pre (matchPatAt_hit_www rfl rfl (idTail_valid hv)) rfl
  unfold _extract_with_patterns
  rw [hn1, patStep_none, hn2, patStep_none, hn3, patStep_none, hn4, patStep_none]
  rw [show (("www.youtube.com/live/").toList) ++ id =
      (("www.").toList) ++ ((("youtube.com/live/").toList) ++ id) from rfl]
  rw [hh]
  exact patStep_some_valid _ (validId_is_valid hv)

lemma sp_live_p {id : List Char} (hv : validId id = true) :
    extract_video_id ((("youtube.com/live/").toList) ++ id) = some id := by
  have hall := validId_all hv
  apply extract_of_patterns
  · rfl
  have hps : pyStrip ((("youtube.com/live/").toList) ++ id) = (("youtube.com/live/").toList) ++ id :=
    pyStrip_no_ws (append_no_ws (by decide) hall)
  rw [hps]
  have hn1 : searchPat true (("youtube.com/watch?v=").toList)
      ((("youtube.com/live/").toList) ++ id) = none := by
    rw [show searchPat true (("youtube.com/watch?v=").toList)
          ((("youtube.com/live/").toList) ++ id)
        = searchPat true (("youtube.com/watch?v=").toList) id from rfl]
    exact searchPat_none_allClass (by decide) id hall
  have hn2 : searchPat false (("youtu.be/").toList)
      ((("youtube.com/live/").toList) ++ id) = none := by
    rw [show searchPat false (("youtu.be/").toList)
          ((("youtube.com/live/").toList) ++ id)
        = searchPat false (("youtu.be/").toList) id from rfl]
    exact searchPat_none_allClass (by decide) id hall
  have hn3 : searchPat true (("youtube.com/embed/").toList)
      ((("youtube.com/live/").toList) ++ id) = none := by
    rw [show searchPat true (("youtube.com/embed/").toList)
          ((("youtube.com/live/").toList) ++ id)
        = searchPat true (("youtube.com/embed/").toList) id from rfl]
    exact searchPat_none_allClass (by decide) id hall
  have hn4 : searchPat true (("youtube.com/shorts/").toList)
      ((("youtube.com/live/").toList) ++ id) = none := by
    rw [show searchPat true (("youtube.com/shorts/").toList)
          ((("youtube.com/live/").toList) ++ id)
        = searchPat true (("youtube.com/shorts/").toList) id from rfl]
    exact searchPat_none_allClass (by decide) id hall
  have hh : searchPat true (("youtube.com/live/").toList)
      ((("youtube.com/live/").toList) ++ id) = some id :=
    searchPat_hit_pre (matchPatAt_hit_plain rfl rfl rfl (idTail_valid hv)) rfl
  unfold _extract_with_patterns
  rw [hn1, patStep_none, hn2, patStep_none, hn3, patStep_none, hn4, patStep_none]
  rw [hh]
  exact patStep_some_valid _ (validId_is_valid hv)

lemma sp_m_h {id : List Char} (hv : validId id = true) :
    extract_video_id ((("https://m.youtube.com/watch?v=").toList) ++ id) = some id := by
  have hall := validId_all hv
  apply extract_of_patterns
  · rfl
  have hps : pyStrip ((("https://m.youtube.com/watch?v=").toList) ++ id) = (("https://m.youtube.com/watch?v=").toList) ++ id :=
    pyStrip_no_ws (append_no_ws (by decide) hall)
  rw [hps]
  have hh : searchPat true (("youtube.com/watch?v=").toList)
      ((("https://m.youtube.com/watch?v=").toList) ++ id) = some id := by
    rw [show searchPat true (("youtube.com/watch?v=").toList)
          ((("https://m.youtube.com/watch?v=").toList) ++ id)
        = searchPat true (("youtube.com/watch?v=").toList) ((("youtube.com/watch?v=").toList) ++ id) from rfl]
    exact searchPat_hit_pre (matchPatAt_hit_plain rfl rfl rfl (idTail_valid hv)) rfl
  unfold _extract_with_patterns
  rw [hh]
  exact patStep_some_valid _ (validId_is_valid hv)

lemma sp_m_p {id : List Char} (hv : validId id = true) :
    extract_video_id ((("m.youtube.com/watch?v=").toList) ++ id) = some id := by
  have hall := validId_all hv
  apply extract_of_patterns
  · rfl
  have hps : pyStrip ((("m.youtube.com/watch?v=").toList) ++ id) = (("m.youtube.com/watch?v=").toList) ++ id :=
    pyStrip_no_ws (append_no_ws (by decide) hall)
  rw [hps]
  have hh : searchPat true (("youtube.com/watch?v=").toList)
      ((("m.youtube.com/watch?v=").toList) ++ id) = some id := by
    rw [show searchPat true (("youtube.com/watch?v=").toList)
          ((("m.youtube.com/watch?v=").toList) ++ id)
        = searchPat true (("youtube.com/watch?v=").toList) ((("youtube.com/watch?v=").toList) ++ id) from rfl]
    exact searchPat_hit_pre (matchPatAt_hit_plain rfl rfl rfl (idTail_valid hv)) rfl
  unfold _extract_with_patterns
  rw [hh]
  exact patStep_some_valid _ (validId_is_valid hv)

lemma sp_bare {id : List Char} (hv : validId id = true) :
    extract_video_id id = some id := by
  have hall := validId_all hv
  apply extract_of_patterns (validId_isEmpty hv)
  have hps : pyStrip id = id := pyStrip_no_ws (all_not_space_of_all_idChar hall)
  rw [hps]
  have hn1 : searchPat true (("youtube.com/watch?v=").toList) id = none :=
    searchPat_none_allClass (by decide) id hall
  have hn2 : searchPat false (("youtu.be/").toList) id = none :=
    searchPat_none_allClass (by decide) id hall
  have hn3 : searchPat true (("youtube.com/embed/").toList) id = none :=
    searchPat_none_allClass (by decide) id hall
  have hn4 : searchPat true (("youtube.com/shorts/").toList) id = none :=
    searchPat_none_allClass (by decide) id hall
  have hn5 : searchPat true (("youtube.com/live/").toList) id = none :=
    searchPat_none_allClass (by decide) id hall
  have hn6 : searchPat false (("m.youtube.com/watch?v=").toList) id = none :=
    searchPat_none_allClass (by decide) id hall
  unfold _extract_with_patterns
  rw [hn1, patStep_none, hn2, patStep_none, hn3, patStep_none, hn4, patStep_none,
    hn5, patStep_none, hn6, patStep_none, matchBare_valid hv]
  exact patStep_some_valid _ (validId_is_valid hv)

/-- C2: every input that is exactly one supported URL shape (each watch, embed,
    shorts and live form with or without scheme and www, the youtu.be and
    m.youtube.com forms with or without scheme, or a bare eleven-character
    identifier) yields the embedded identifier, and every identifier the
    extractor ever returns passes the eleven-character validator; the
    extractor is a total function, never raising. The converse direction of
    the claim fails: inputs that are not a supported shape can still yield an
    identifier, because re.search finds the URL anywhere inside the string. -/
theorem c2_supported_shapes :
    (∀ s v : List Char, supportedShapeId s = some v → extract_video_id s = some v) ∧
    (∀ s v : List Char, extract_video_id s = some v → _is_valid_video_id v = true) := by
  constructor
  · intro s v h
    unfold supportedShapeId at h
    cases hf : List.findSome? (fun p => tryShape p s) shapePrefixes with
    | some w =>
      rw [hf, orO_some] at h
      injection h with hwv
      subst hwv
      obtain ⟨p, hmem, hpw⟩ := List.exists_of_findSome?_eq_some hf
      have hpw2 : tryShape p s = some w := hpw
      unfold tryShape at hpw2
      by_cases hc : (p.isPrefixOf s && validId (s.drop p.length)) = true
      · rw [if_pos hc] at hpw2
        injection hpw2 with hdw
        rw [Bool.and_eq_true] at hc
        have hvw : validId w = true := by rw [← hdw]; exact hc.2
        have hs : p ++ w = s := by
          rw [← hdw]
          nth_rewrite 1 [List.prefix_iff_eq_take.mp (List.isPrefixOf_iff_prefix.mp hc.1)]
          exact List.take_append_drop _ s
        rw [← hs]
        simp only [shapePrefixes, List.mem_cons, List.not_mem_nil, or_false] at hmem
        rcases hmem with rfl|rfl|rfl|rfl|rfl|rfl|rfl|rfl|rfl|rfl|rfl|rfl|rfl|rfl|rfl|rfl|rfl|rfl|rfl|rfl
        · exact sp_watch_hw hvw
        · exact sp_watch_h hvw
        · exact sp_watch_w hvw
        · exact sp_watch_p hvw
        · exact sp_be_h hvw
        · exact sp_be_p hvw
        · exact sp_embed_hw hvw
        · exact sp_embed_h hvw
        · exact sp_embed_w hvw
        · exact sp_embed_p hvw
        · exact sp_shorts_hw hvw
        · exact sp_shorts_h hvw
        · exact sp_shorts_w hvw
        · exact sp_shorts_p hvw
        · exact sp_live_hw hvw
        · exact sp_live_h hvw
        · exact sp_live_w hvw
        · exact sp_live_p hvw
        · exact sp_m_h hvw
        · exact sp_m_p hvw
      · rw [if_neg hc] at hpw2
        exact absurd hpw2 (by simp)
    | none =>
      rw [hf, orO_none] at h
      by_cases hvs : validId s = true
      · rw [if_pos hvs] at h
        injection h with e
        subst e
        exact sp_bare hvs
      · rw [if_neg hvs] at h
        exact absurd h (by simp)
  · intro s v h
    exact extract_valid h

/-- C2 witness: the canonical short URL is a supported shape and the extractor
    returns its identifier. -/
theorem c2_supported_shapes_witness :
    supportedShapeId (("https://youtu.be/dQw4w9WgXcQ").toList) =
      some (("dQw4w9WgXcQ").toList) ∧
    extract_video_id (("https://youtu.be/dQw4w9WgXcQ").toList) =
      some (("dQw4w9WgXcQ").toList) :=
  ⟨by decide, c2_supported_shapes.1 _ _ (by decide)⟩

/-- C2 counterexample: a string that is not a supported URL shape (prose with a
    URL inside) still yields an identifier, so the part of the claim reading
    "for every other input string it returns null" fails. -/
theorem c2_counterexample :
    supportedShapeId (("see https://youtu.be/dQw4w9WgXcQ now").toList) = none ∧
    extract_video_id (("see https://youtu.be/dQw4w9WgXcQ now").toList) =
      some (("dQw4w9WgXcQ").toList) := by
  constructor
  · decide
  · decide

end YTV
